import Mathlib

/-!
Verification of the eco-system-evolution plant simulator.

This file is a shallow embedding, in Lean 4, of the parts of the repository
that the checked properties concern:

* the dense entity store (`src/plant_manager.py`: `add_plant`, `remove_plant`);
* the vectorized derived-field passes (`src/plant_manager.py`:
  `update_aging_efficiencies`, `update_hydraulic_efficiencies`,
  `update_environmental_efficiencies`, `update_soil_efficiencies`,
  `update_metabolism_costs`, and the `update_photosynthesis_gains` pass whose
  call site is `src/world.py` line 377 but whose definition is absent from the
  source tree, so it is modelled from the specification);
* the spatial competition grids (`src/world.py`:
  `_populate_competition_grids`, `_calculate_plant_competition`);
* the temporal event scheduler (`src/world.py`: `schedule_plant_update`,
  `schedule_animal_update`, `update_in_bulk`);
* the plant biology state machine (`src/creatures.py`: `Plant.__init__`,
  `_update_seed`, `_calculate_energy_balance`, `_process_self_pruning`,
  `_allocate_surplus_energy`, `_update_growing_plant`, `_disperse_seed`, and
  the fruit-drop section of `Plant.update`).

Python floats are embedded as exact rationals where every operation on the
relevant paths is field arithmetic, and as real numbers where the source uses
`np.pi`, `np.sqrt`, `np.exp` or float powers.  Logging, rendering and the
debug-focus hooks of the source are control-flow-neutral and are omitted.
-/

namespace EcoEvo

/-- Truncation of a rational toward zero, the behaviour of Python `int()`
applied to a (non-integral) float value. -/
def pyInt (q : ℚ) : ℤ := if q < 0 then -(Int.floor (-q)) else Int.floor q

theorem pyInt_of_nonneg (q : ℚ) (h : 0 ≤ q) : pyInt q = Int.floor q := by
  unfold pyInt
  rw [if_neg (by exact not_lt.mpr h)]

theorem pyInt_intCast (m : ℤ) : pyInt (m : ℚ) = m := by
  unfold pyInt
  rcases lt_or_le (m : ℚ) 0 with h | h
  · rw [if_pos h]
    rw [show -(m : ℚ) = ((-m : ℤ) : ℚ) by push_cast; ring, Int.floor_intCast]
    ring
  · rw [if_neg (not_lt.mpr h), Int.floor_intCast]

/-! ## Constants

Numeric constants from `src/constants.py`, restricted to the ones the
verified code paths read.  Rational-valued copies are used by the scheduler,
store and grid embeddings; real-valued copies by the biology embedding
(whose arithmetic also involves `pi`, square roots and exponentials). -/

/-- Constant `PLANT_LOGIC_UPDATE_INTERVAL_SECONDS = 3600.0` (one hour). -/
def PLANT_LOGIC_UPDATE_INTERVAL_SECONDS : ℚ := 3600

/-- Constant `ANIMAL_UPDATE_TICK_SECONDS = 60.0` (one minute). -/
def ANIMAL_UPDATE_TICK_SECONDS : ℚ := 60

/-- Constant `PLANT_COMPETITION_UPDATE_INTERVAL_SECONDS = 86400.0` (one day). -/
def PLANT_COMPETITION_UPDATE_INTERVAL_SECONDS : ℚ := 86400

/-- Constant `WORLD_WIDTH_CM = 100000`. -/
def WORLD_WIDTH_CM : ℚ := 100000

/-- Constant `WORLD_HEIGHT_CM = 100000`. -/
def WORLD_HEIGHT_CM : ℚ := 100000

/-! ## Entity store (`src/plant_manager.py`)

`PlantManager` keeps a Python list `plants` of plant objects, a logical
`count`, and a dictionary of parallel NumPy arrays indexed by each plant
`index` field.  The embedding keeps the list, the count, and one
representative backing column (`energies`); the remaining columns are
copied by exactly the same swap in `remove_plant` (the source loops over
`self.arrays.items()`), so one column suffices to witness the mechanics.
Capacity doubling (`_grow_capacity`) only reallocates storage and is
invisible in a model whose columns are total functions. -/

/-- A plant object as the store sees it: a stable identity, the mutable
`index` back-reference set by the store, and its energy attribute. -/
structure SPlant where
  pid : ℕ
  index : ℕ
  energy : ℚ
deriving DecidableEq

instance : Inhabited SPlant := ⟨⟨0, 0, 0⟩⟩

/-- The dense entity store: `plants`, `count` and the backing columns
(represented by `energies`). -/
structure PMStore where
  plants : List SPlant
  count : ℕ
  energies : ℕ → ℚ

/-- A fresh `PlantManager()`: no plants, count zero, zeroed arrays. -/
def emptyStore : PMStore := ⟨[], 0, fun _ => 0⟩

/-- Embedding of `PlantManager.add_plant`: set `plant.index = count`, append
the object to `plants`, write its attributes at row `count`, increment
`count`. -/
def addPlant (s : PMStore) (plant : SPlant) : PMStore :=
  let p := { plant with index := s.count }
  { plants := s.plants ++ [p],
    count := s.count + 1,
    energies := fun i => if i = s.count then p.energy else s.energies i }

/-- Embedding of `PlantManager.remove_plant` (swap-and-pop).  The returned
boolean records whether the swap branch ran.  The first branch is the
defensive integrity check of the source (`index >= count` or object
mismatch): it logs, best-effort removes the object from the list, and
leaves `count` untouched. -/
def removePlant (s : PMStore) (plant_to_remove : SPlant) : PMStore × Bool :=
  if s.count ≤ plant_to_remove.index ∨
      s.plants.getD plant_to_remove.index default ≠ plant_to_remove then
    ({ s with plants := s.plants.erase plant_to_remove }, false)
  else if plant_to_remove.index = s.count - 1 then
    ({ plants := s.plants.dropLast, count := s.count - 1, energies := s.energies }, false)
  else
    let last_plant := s.plants.getD (s.count - 1) default
    ({ plants :=
        (s.plants.set plant_to_remove.index
          { last_plant with index := plant_to_remove.index }).dropLast,
       count := s.count - 1,
       energies := fun i =>
         if i = plant_to_remove.index then s.energies (s.count - 1) else s.energies i },
     true)

/-- The store invariant: `count` equals the number of stored plants (no
vacant slots below `count`) and every stored plant carries its own slot as
its `index`. -/
def storeInv (s : PMStore) : Prop :=
  s.count = s.plants.length ∧
    ∀ i (h : i < s.plants.length), s.plants[i].index = i

/-- One call against the store: `add_plant` with a fresh object, or
`remove_plant` handed the plant currently stored at slot `i` (as the
housekeeping loop of `World._process_housekeeping` does). -/
inductive StoreOp where
  | add (p : SPlant)
  | remove (i : ℕ)
deriving DecidableEq

/-- Apply one store call. -/
def applyStoreOp (s : PMStore) : StoreOp → PMStore
  | .add p => addPlant s p
  | .remove i => (removePlant s (s.plants.getD i default)).1

/-- Apply a sequence of store calls in order. -/
def applyStoreOps (s : PMStore) : List StoreOp → PMStore
  | [] => s
  | op :: rest => applyStoreOps (applyStoreOp s op) rest

/-- A sequence of calls is valid when every removal targets a live slot
(its plant is then genuinely stored at its own index). -/
def validStoreOps (s : PMStore) : List StoreOp → Prop
  | [] => True
  | op :: rest =>
      (match op with
        | .add _ => True
        | .remove i => i < s.count) ∧ validStoreOps (applyStoreOp s op) rest

theorem storeInv_empty : storeInv emptyStore := by
  constructor
  · rfl
  · intro i h
    simp [emptyStore] at h

theorem storeInv_add (s : PMStore) (p : SPlant) (hs : storeInv s) :
    storeInv (addPlant s p) := by
  obtain ⟨hc, hidx⟩ := hs
  constructor
  · simp [addPlant, hc]
  · intro i h
    simp only [addPlant, List.length_append, List.length_cons, List.length_nil] at h
    simp only [addPlant]
    rcases lt_or_le i s.plants.length with hi | hi
    · rw [List.getElem_append_left hi]
      exact hidx i hi
    · have hie : i = s.plants.length := by omega
      subst hie
      rw [List.getElem_append_right hi]
      simpa using hc

theorem storeInv_remove (s : PMStore) (i : ℕ) (hs : storeInv s) (hi : i < s.count) :
    storeInv (removePlant s (s.plants.getD i default)).1 := by
  obtain ⟨hc, hidx⟩ := hs
  have hil : i < s.plants.length := hc ▸ hi
  have hgetD : s.plants.getD i default = s.plants[i] := by
    simp [List.getD_eq_getElem?_getD, List.getElem?_eq_getElem hil]
  have hpidx : (s.plants.getD i default).index = i := by
    rw [hgetD]; exact hidx i hil
  have hguard : ¬(s.count ≤ (s.plants.getD i default).index ∨
      s.plants.getD (s.plants.getD i default).index default ≠ s.plants.getD i default) := by
    push_neg
    constructor
    · rw [hpidx]; exact hi
    · rw [hpidx]
  unfold removePlant
  rw [if_neg hguard]
  by_cases hlast : (s.plants.getD i default).index = s.count - 1
  · rw [if_pos hlast]
    refine ⟨by simp [List.length_dropLast, hc], ?_⟩
    intro j hj
    simp only [List.length_dropLast] at hj
    have hjl : j < s.plants.length := by omega
    rw [List.getElem_dropLast]
    exact hidx j hjl
  · rw [if_neg hlast]
    rw [hpidx] at hlast
    simp only [hpidx]
    have hlastl : s.count - 1 < s.plants.length := by omega
    refine ⟨by simp [List.length_dropLast, List.length_set, hc], ?_⟩
    intro j hj
    simp only [List.length_dropLast, List.length_set] at hj
    have hjl : j < s.plants.length := by omega
    rw [List.getElem_dropLast]
    rw [List.getElem_set]
    by_cases hji : i = j
    · subst hji
      simp
    · rw [if_neg hji]
      exact hidx j hjl

theorem storeInv_ops (s : PMStore) (ops : List StoreOp) (hs : storeInv s)
    (hv : validStoreOps s ops) : storeInv (applyStoreOps s ops) := by
  induction ops generalizing s with
  | nil => exact hs
  | cons op rest ih =>
    obtain ⟨hop, hrest⟩ := hv
    apply ih
    · cases op with
      | add p => exact storeInv_add s p hs
      | remove i => exact storeInv_remove s i hs hop
    · exact hrest

/-- A store holding exactly one plant (pid 7, energy 5), built by one
`add_plant` call. -/
def store1 : PMStore := addPlant emptyStore ⟨7, 0, 5⟩

/-- Claim C6: after any sequence of add and remove calls on the entity store
(each remove given a plant actually stored at its own index), every live
slot `i < count` holds a plant whose `index` field equals `i` and there are
no vacant slots below `count`; in particular, removing the only plant of a
1-plant store yields `count = 0`, an empty list, and no swap. -/
theorem claim_C6_store_removal_invariant :
    (∀ s ops, storeInv s → validStoreOps s ops → storeInv (applyStoreOps s ops)) ∧
    storeInv emptyStore ∧
    (removePlant store1 (store1.plants.getD 0 default)).1.count = 0 ∧
    (removePlant store1 (store1.plants.getD 0 default)).1.plants = [] ∧
    (removePlant store1 (store1.plants.getD 0 default)).2 = false := by
  refine ⟨fun s ops hs hv => storeInv_ops s ops hs hv, storeInv_empty, ?_, ?_, ?_⟩ <;>
    simp [store1, addPlant, emptyStore, removePlant]

/-! ## Spatial competition grids (`src/world.py`)

`World.__init__` sizes two dense grids by
`int(WORLD_WIDTH_CM // LIGHT_GRID_CELL_SIZE_CM)`;
`_populate_competition_grids` rasterizes every plant disc onto them
(light grid: max of canopy heights; root grid: sum of root radii), and
`_calculate_plant_competition` re-walks the same cells per plant to derive
`shaded_canopy_area` and `overlapped_root_area`.  Grids are embedded as
total functions from integer cell coordinates, updated only inside the
clamped bounding box of each plant exactly as the source does.  The NumPy
meshgrid enumerates (gy, gx) pairs row-first; the embedding enumerates the
same set of cells gx-first, which changes nothing the code observes (cell
membership, per-cell updates, counts and sums over the set).

The value of `LIGHT_GRID_CELL_SIZE_CM` is read by `src/world.py` but is
missing from `src/constants.py`, so the cell size is kept as a field of the
grid world. -/

/-- The per-plant data the two grid passes read out of the manager arrays:
`positions[i]`, `radii[i]`, `heights[i]`, `root_radii[i]`. -/
structure GPlant where
  x : ℚ
  y : ℚ
  radius : ℚ
  height : ℚ
  root_radius : ℚ
deriving DecidableEq

/-- The grid subsystem state: the cell size (see module comment), the grid
shape, and the live plant rows. -/
structure GridWorld where
  cell : ℚ
  gw : ℤ
  gh : ℤ
  plants : List GPlant

/-- Modelled from the spec: grids are sized `WORLD_WIDTH_CM / CELL_SIZE ×
WORLD_HEIGHT_CM / CELL_SIZE` (spec section 3); the source computes
`int(C.WORLD_WIDTH_CM // C.LIGHT_GRID_CELL_SIZE_CM)` with a cell-size
constant that is absent from `src/constants.py`. -/
def mkGridWorld (cell : ℚ) (plants : List GPlant) : GridWorld :=
  { cell := cell,
    gw := Int.floor (WORLD_WIDTH_CM / cell),
    gh := Int.floor (WORLD_HEIGHT_CM / cell),
    plants := plants }

/-- Embedding of `np.arange(a, b + 1)` over integers. -/
def intRange (a b : ℤ) : List ℤ := (List.range (b + 1 - a).toNat).map (fun n => a + n)

/-- World x-coordinate of the centre of grid column `g`:
`(g + 0.5) * LIGHT_GRID_CELL_SIZE_CM`. -/
def cellCenter (w : GridWorld) (g : ℤ) : ℚ := ((g : ℚ) + 1 / 2) * w.cell

/-- Lower x-bound of the clamped bounding box:
`int(max(0, (x - radius) / CELL))`. -/
def minG (w : GridWorld) (pos radius : ℚ) : ℤ := pyInt (max 0 ((pos - radius) / w.cell))

/-- Upper x/y-bound of the clamped bounding box:
`int(min(shape - 1, (pos + radius) / CELL))`. -/
def maxG (w : GridWorld) (shape : ℤ) (pos radius : ℚ) : ℤ :=
  pyInt (min ((shape - 1 : ℤ) : ℚ) ((pos + radius) / w.cell))

/-- The grid cells of the bounding box of a disc of radius `radius` around
`(x, y)` whose centres lie inside the disc (the mask
`dist_sq <= radius**2`). -/
def discCells (w : GridWorld) (x y radius : ℚ) : List (ℤ × ℤ) :=
  ((intRange (minG w x radius) (maxG w w.gw x radius)).flatMap fun gx =>
    (intRange (minG w y radius) (maxG w w.gh y radius)).map fun gy => (gx, gy)).filter
    fun c =>
      decide ((x - cellCenter w c.1) ^ 2 + (y - cellCenter w c.2) ^ 2 ≤ radius ^ 2)

/-- Canopy cells of a plant (`cells_inside_canopy_mask`). -/
def canopyCells (w : GridWorld) (p : GPlant) : List (ℤ × ℤ) := discCells w p.x p.y p.radius

/-- Root cells of a plant (`cells_inside_roots_mask`). -/
def rootCells (w : GridWorld) (p : GPlant) : List (ℤ × ℤ) := discCells w p.x p.y p.root_radius

/-- One iteration of the plant loop of `_populate_competition_grids`:
skip non-positive radii, write `max(cell, height)` over the canopy cells of
the light grid and `cell + root_radius` over the root cells of the root
grid. -/
def popStep (w : GridWorld) (g : (ℤ × ℤ → ℚ) × (ℤ × ℤ → ℚ)) (p : GPlant) :
    (ℤ × ℤ → ℚ) × (ℤ × ℤ → ℚ) :=
  if p.radius ≤ 0 then g
  else
    (fun c => if c ∈ canopyCells w p then max (g.1 c) p.height else g.1 c,
     fun c => if c ∈ rootCells w p then g.2 c + p.root_radius else g.2 c)

/-- Embedding of `_populate_competition_grids`: both grids are zeroed and
every plant is rasterized in store order.  Returns (light grid, root
grid). -/
def populateGrids (w : GridWorld) : (ℤ × ℤ → ℚ) × (ℤ × ℤ → ℚ) :=
  w.plants.foldl (popStep w) (fun _ => 0, fun _ => 0)

/-- The canopy cells of `p` that count as shaded: the plant height is
strictly below the light-grid value (`shaded_cells_mask`:
`height < canopy_heights_on_grid`). -/
def shadedCells (w : GridWorld) (light : ℤ × ℤ → ℚ) (p : GPlant) : List (ℤ × ℤ) :=
  (canopyCells w p).filter fun c => decide (p.height < light c)

/-- Unclamped shaded area: `num_shaded_cells * cell_area`. -/
def shadedRaw (w : GridWorld) (light : ℤ × ℤ → ℚ) (p : GPlant) : ℚ :=
  ((shadedCells w light p).length : ℚ) * w.cell ^ 2

/-- The root cells of `p` under competition (`competed_cells_mask`:
`total_pressures > root_radius`). -/
def competedCells (w : GridWorld) (root : ℤ × ℤ → ℚ) (p : GPlant) : List (ℤ × ℤ) :=
  (rootCells w p).filter fun c => decide (p.root_radius < root c)

/-- Unclamped overlapped root area: the per-cell overlap ratios
`(total_pressure - root_radius) / total_pressure` summed, times the cell
area. -/
def overlapRaw (w : GridWorld) (root : ℤ × ℤ → ℚ) (p : GPlant) : ℚ :=
  (((competedCells w root p).map fun c => (root c - p.root_radius) / root c).sum) * w.cell ^ 2

/-- The `shaded_canopy_area` value `_calculate_plant_competition` assigns
for one plant: zero when the plant was skipped (`radius <= 0`), otherwise
the raw cell count area clamped by `min(. , radius**2 * np.pi)`. -/
noncomputable def resolveShaded (w : GridWorld) (light : ℤ × ℤ → ℚ) (p : GPlant) : ℝ :=
  if p.radius ≤ 0 then 0
  else min ((shadedRaw w light p : ℝ)) ((p.radius : ℝ) ^ 2 * Real.pi)

/-- The `overlapped_root_area` value `_calculate_plant_competition` assigns
for one plant: zero when skipped, otherwise the raw ratio sum clamped by
`min(. , root_radius**2 * np.pi)` (`my_root_area`). -/
noncomputable def resolveOverlap (w : GridWorld) (root : ℤ × ℤ → ℚ) (p : GPlant) : ℝ :=
  if p.radius ≤ 0 then 0
  else min ((overlapRaw w root p : ℝ)) ((p.root_radius : ℝ) ^ 2 * Real.pi)

/-- Embedding of the resolve pass `_calculate_plant_competition`: the pair
of competition outputs for every live plant row, in order. -/
noncomputable def calculatePlantCompetition (w : GridWorld) (light root : ℤ × ℤ → ℚ) :
    List (ℝ × ℝ) :=
  w.plants.map fun p => (resolveShaded w light p, resolveOverlap w root p)

theorem shadedRaw_nonneg (w : GridWorld) (light : ℤ × ℤ → ℚ) (p : GPlant) :
    0 ≤ shadedRaw w light p := by
  unfold shadedRaw
  positivity

theorem overlapRaw_nonneg (w : GridWorld) (root : ℤ × ℤ → ℚ) (p : GPlant)
    (hrr : 0 ≤ p.root_radius) : 0 ≤ overlapRaw w root p := by
  unfold overlapRaw
  apply mul_nonneg
  · apply List.sum_nonneg
    intro q hq
    obtain ⟨c, hc, hval⟩ := List.mem_map.mp hq
    have hcc : p.root_radius < root c := by
      have := (List.mem_filter.mp hc).2
      simpa using this
    have hroot : 0 < root c := lt_of_le_of_lt hrr hcc
    rw [← hval]
    apply div_nonneg _ (le_of_lt hroot)
    linarith
  · positivity

/-- Claim C4: after any resolve pass of the competition grid, every plant
satisfies `0 <= shaded_canopy_area <= pi * radius^2` and
`0 <= overlapped_root_area <= pi * root_radius^2` (the root radius of a
live plant is non-negative). -/
theorem claim_C4_competition_bounds (w : GridWorld) (light root : ℤ × ℤ → ℚ) (p : GPlant)
    (hrr : 0 ≤ p.root_radius) :
    (0 ≤ resolveShaded w light p ∧
      resolveShaded w light p ≤ Real.pi * (p.radius : ℝ) ^ 2) ∧
    (0 ≤ resolveOverlap w root p ∧
      resolveOverlap w root p ≤ Real.pi * (p.root_radius : ℝ) ^ 2) := by
  have hpi : (0:ℝ) ≤ Real.pi := le_of_lt Real.pi_pos
  unfold resolveShaded resolveOverlap
  by_cases hr : p.radius ≤ 0
  · rw [if_pos hr, if_pos hr]
    refine ⟨⟨le_refl 0, by positivity⟩, ⟨le_refl 0, by positivity⟩⟩
  · rw [if_neg hr, if_neg hr]
    refine ⟨⟨?_, ?_⟩, ⟨?_, ?_⟩⟩
    · apply le_min
      · exact_mod_cast shadedRaw_nonneg w light p
      · positivity
    · calc min ((shadedRaw w light p : ℝ)) ((p.radius : ℝ) ^ 2 * Real.pi) ≤
          (p.radius : ℝ) ^ 2 * Real.pi := min_le_right _ _
        _ = Real.pi * (p.radius : ℝ) ^ 2 := by ring
    · apply le_min
      · exact_mod_cast overlapRaw_nonneg w root p hrr
      · positivity
    · calc min ((overlapRaw w root p : ℝ)) ((p.root_radius : ℝ) ^ 2 * Real.pi) ≤
          (p.root_radius : ℝ) ^ 2 * Real.pi := min_le_right _ _
        _ = Real.pi * (p.root_radius : ℝ) ^ 2 := by ring

/-- The taller of the two stand-in plants of the C5 scenario: canopy radius
50 cm, height 100 cm. -/
def tallPlant : GPlant := ⟨130, 150, 50, 100, 0⟩

/-- The shorter plant of the C5 scenario: canopy radius 50 cm, height 80 cm,
centre 40 cm from the taller plant. -/
def shortPlant : GPlant := ⟨170, 150, 50, 80, 0⟩

/-- The C5 scenario world: cell size 100 cm, the two plants and nothing
else. -/
def wC5 : GridWorld := mkGridWorld 100 [tallPlant, shortPlant]

/-- Witness for the C4 claim at a concrete world, grid and plant. -/
theorem claim_C4_competition_bounds_witness :
    (0 ≤ resolveShaded wC5 (fun _ => 0) tallPlant ∧
      resolveShaded wC5 (fun _ => 0) tallPlant ≤ Real.pi * ((tallPlant.radius : ℝ)) ^ 2) ∧
    (0 ≤ resolveOverlap wC5 (fun _ => 0) tallPlant ∧
      resolveOverlap wC5 (fun _ => 0) tallPlant ≤ Real.pi * ((tallPlant.root_radius : ℝ)) ^ 2) :=
  claim_C4_competition_bounds wC5 (fun _ => 0) (fun _ => 0) tallPlant (by norm_num [tallPlant])

theorem c5_canopy_tall : canopyCells wC5 tallPlant = [(1, 1)] := by
  have hminx : minG wC5 tallPlant.x tallPlant.radius = 0 := by
    norm_num [minG, pyInt, wC5, mkGridWorld, tallPlant, max_def]
  have hmaxx : maxG wC5 wC5.gw tallPlant.x tallPlant.radius = 1 := by
    norm_num [maxG, pyInt, wC5, mkGridWorld, tallPlant, WORLD_WIDTH_CM, min_def]
  have hminy : minG wC5 tallPlant.y tallPlant.radius = 1 := by
    norm_num [minG, pyInt, wC5, mkGridWorld, tallPlant, max_def]
  have hmaxy : maxG wC5 wC5.gh tallPlant.y tallPlant.radius = 2 := by
    norm_num [maxG, pyInt, wC5, mkGridWorld, tallPlant, WORLD_HEIGHT_CM, min_def]
  unfold canopyCells discCells
  rw [hminx, hmaxx, hminy, hmaxy]
  rw [show ((intRange 0 1).flatMap fun gx => (intRange 1 2).map fun gy => (gx, gy)) =
      [(0, 1), (0, 2), (1, 1), (1, 2)] from by decide]
  norm_num [List.filter, cellCenter, wC5, mkGridWorld, tallPlant]

theorem c5_canopy_short : canopyCells wC5 shortPlant = [(1, 1)] := by
  have hminx : minG wC5 shortPlant.x shortPlant.radius = 1 := by
    norm_num [minG, pyInt, wC5, mkGridWorld, shortPlant, max_def]
  have hmaxx : maxG wC5 wC5.gw shortPlant.x shortPlant.radius = 2 := by
    norm_num [maxG, pyInt, wC5, mkGridWorld, shortPlant, WORLD_WIDTH_CM, min_def]
  have hminy : minG wC5 shortPlant.y shortPlant.radius = 1 := by
    norm_num [minG, pyInt, wC5, mkGridWorld, shortPlant, max_def]
  have hmaxy : maxG wC5 wC5.gh shortPlant.y shortPlant.radius = 2 := by
    norm_num [maxG, pyInt, wC5, mkGridWorld, shortPlant, WORLD_HEIGHT_CM, min_def]
  unfold canopyCells discCells
  rw [hminx, hmaxx, hminy, hmaxy]
  rw [show ((intRange 1 2).flatMap fun gx => (intRange 1 2).map fun gy => (gx, gy)) =
      [(1, 1), (1, 2), (2, 1), (2, 2)] from by decide]
  norm_num [List.filter, cellCenter, wC5, mkGridWorld, shortPlant]

theorem c5_light_value : (populateGrids wC5).1 (1, 1) = 100 := by
  have hplants : wC5.plants = [tallPlant, shortPlant] := rfl
  unfold populateGrids
  rw [hplants]
  simp only [List.foldl_cons, List.foldl_nil]
  rw [show popStep wC5 (fun _ => 0, fun _ => 0) tallPlant =
      (fun c => if c ∈ canopyCells wC5 tallPlant then max 0 tallPlant.height else 0,
       fun c => if c ∈ rootCells wC5 tallPlant then 0 + tallPlant.root_radius else 0) from by
    unfold popStep
    rw [if_neg (by norm_num [tallPlant])]]
  unfold popStep
  rw [if_neg (by norm_num [shortPlant])]
  simp only [c5_canopy_tall, c5_canopy_short]
  norm_num [tallPlant, shortPlant, max_def]

theorem c5_shaded_short :
    shadedCells wC5 (populateGrids wC5).1 shortPlant = [(1, 1)] := by
  unfold shadedCells
  rw [c5_canopy_short, List.filter_cons, c5_light_value]
  rw [if_pos (by norm_num [shortPlant])]
  rw [List.filter_nil]

theorem c5_shaded_tall : shadedCells wC5 (populateGrids wC5).1 tallPlant = [] := by
  unfold shadedCells
  rw [c5_canopy_tall, List.filter_cons, c5_light_value]
  rw [if_neg (by norm_num [tallPlant])]
  rw [List.filter_nil]

/-- Claim C5: in the resolve pass a covered cell counts as shaded exactly
when the plant height is strictly below the light-grid value there; for two
plants of canopy radius 50 cm whose centres are 40 cm apart, heights 100 cm
and 80 cm, after populate and resolve the shorter plant has
`shaded_canopy_area > 0` and the taller plant has `0`. -/
theorem claim_C5_strict_shading :
    (∀ (w : GridWorld) (light : ℤ × ℤ → ℚ) (p : GPlant) (c : ℤ × ℤ),
        c ∈ shadedCells w light p ↔ c ∈ canopyCells w p ∧ p.height < light c) ∧
    0 < resolveShaded wC5 (populateGrids wC5).1 shortPlant ∧
    resolveShaded wC5 (populateGrids wC5).1 tallPlant = 0 := by
  refine ⟨?_, ?_, ?_⟩
  · intro w light p c
    simp [shadedCells, List.mem_filter]
  · unfold resolveShaded
    rw [if_neg (by norm_num [shortPlant])]
    have hraw : shadedRaw wC5 (populateGrids wC5).1 shortPlant = 10000 := by
      unfold shadedRaw
      rw [c5_shaded_short]
      norm_num [wC5, mkGridWorld]
    rw [hraw]
    apply lt_min
    · norm_num
    · rw [show ((shortPlant.radius : ℝ)) = 50 from by norm_num [shortPlant]]
      positivity
  · unfold resolveShaded
    rw [if_neg (by norm_num [tallPlant])]
    have hraw : shadedRaw wC5 (populateGrids wC5).1 tallPlant = 0 := by
      unfold shadedRaw
      rw [c5_shaded_tall]
      norm_num
    rw [hraw]
    rw [show ((0:ℚ):ℝ) = 0 from by norm_num]
    apply min_eq_left
    rw [show ((tallPlant.radius : ℝ)) = 50 from by norm_num [tallPlant]]
    positivity

/-! ## Plant biology state machine (`src/creatures.py`)

The per-plant tick logic.  Python float arithmetic is embedded over the
real numbers because these paths use `np.pi`, `np.sqrt`, `np.exp` and float
powers.  A `PlantState` carries the `Plant` object attributes together with
the manager-array rows the tick reads and writes
(`soil_efficiencies[i]`, `aging_efficiencies[i]`, ...,
`photosynthesis_gains_per_second[i]`, `metabolism_costs_per_second[i]`);
the source mirrors every mutated attribute into its array row immediately,
so object attribute and row stay equal and one field represents both.
`reproductive_organs` is carried as its length (organ positions only
matter for rendering and for the fruit drop point, which is passed
explicitly).  Logging and the quadtree/newborn notification side effects
on other objects are outside the per-plant state and are noted where they
occur. -/

open Classical in
/-- Decidability of real comparisons for the conditional branches of the
biology embedding (Python compares floats; the embedding compares reals,
classically). -/
noncomputable instance (priority := low) : ∀ p : Prop, Decidable p :=
  fun _ => Classical.propDecidable _

/-- Plant life stages; the source uses the strings "seed", "seedling",
"mature". -/
inductive LifeStage where
  | seed
  | seedling
  | mature
deriving DecidableEq

/-- Valid soil types; `get_soil_type` returns one of these strings or
`None`. -/
inductive SoilKind where
  | sand
  | grass
  | dirt
deriving DecidableEq

/-- Constant `SECONDS_PER_HOUR = 3600`. -/
noncomputable def SECONDS_PER_HOUR : ℝ := 3600

/-- Constant `PLANT_DORMANCY_METABOLISM_J_PER_HOUR = 10.0`. -/
noncomputable def PLANT_DORMANCY_METABOLISM_J_PER_HOUR : ℝ := 10

/-- Constant `PLANT_SPROUTING_ENERGY_COST = 2000.0`. -/
noncomputable def PLANT_SPROUTING_ENERGY_COST : ℝ := 2000

/-- Constant `GERMINATION_MIN_TEMP = 0.4`. -/
noncomputable def GERMINATION_MIN_TEMP : ℝ := 2 / 5

/-- Constant `GERMINATION_MAX_TEMP = 0.85`. -/
noncomputable def GERMINATION_MAX_TEMP : ℝ := 17 / 20

/-- Constant `GERMINATION_HUMIDITY_THRESHOLD = 0.5`. -/
noncomputable def GERMINATION_HUMIDITY_THRESHOLD : ℝ := 1 / 2

/-- Constant `PLANT_SPROUT_RADIUS_CM = 1.0`. -/
noncomputable def PLANT_SPROUT_RADIUS_CM : ℝ := 1

/-- Constant `PLANT_SPROUT_CORE_RADIUS_CM = 0.2`. -/
noncomputable def PLANT_SPROUT_CORE_RADIUS_CM : ℝ := 1 / 5

/-- Constant `PLANT_RADIUS_TO_HEIGHT_FACTOR = 2.0`. -/
noncomputable def PLANT_RADIUS_TO_HEIGHT_FACTOR : ℝ := 2

/-- Constant `PLANT_MAX_SHADE_RADIUS_TO_HEIGHT_FACTOR = 2.5`. -/
noncomputable def PLANT_MAX_SHADE_RADIUS_TO_HEIGHT_FACTOR : ℝ := 5 / 2

/-- Constant `PLANT_MORPHOLOGY_ADAPTATION_RATE = 0.01`. -/
noncomputable def PLANT_MORPHOLOGY_ADAPTATION_RATE : ℝ := 1 / 100

/-- Constant `PLANT_GROWTH_INVESTMENT_ENERGY_RESERVE = 10000.0`. -/
noncomputable def PLANT_GROWTH_INVESTMENT_ENERGY_RESERVE : ℝ := 10000

/-- Constant `PLANT_GROWTH_INVESTMENT_J_PER_HOUR = 900.0`. -/
noncomputable def PLANT_GROWTH_INVESTMENT_J_PER_HOUR : ℝ := 900

/-- Constant `PLANT_PRUNING_EFFICIENCY = 1.0`. -/
noncomputable def PLANT_PRUNING_EFFICIENCY : ℝ := 1

/-- Constant `PLANT_REPRODUCTIVE_INVESTMENT_J_PER_HOUR = 250.0`. -/
noncomputable def PLANT_REPRODUCTIVE_INVESTMENT_J_PER_HOUR : ℝ := 250

/-- Constant `PLANT_FLOWER_ENERGY_COST = 7500.0`. -/
noncomputable def PLANT_FLOWER_ENERGY_COST : ℝ := 7500

/-- Constant `PLANT_MAX_FLOWERS_PER_CANOPY_AREA = 0.0001`. -/
noncomputable def PLANT_MAX_FLOWERS_PER_CANOPY_AREA : ℝ := 1 / 10000

/-- Constant `PLANT_SEED_PROVISIONING_ENERGY = 15000.0`. -/
noncomputable def PLANT_SEED_PROVISIONING_ENERGY : ℝ := 15000

/-- Constant `PLANT_SENESCENCE_TIMESCALE_SECONDS = 252288000.0`. -/
noncomputable def PLANT_SENESCENCE_TIMESCALE_SECONDS : ℝ := 252288000

/-- Constant `PLANT_MAX_HYDRAULIC_HEIGHT_CM = 1000.0`. -/
noncomputable def PLANT_MAX_HYDRAULIC_HEIGHT_CM : ℝ := 1000

/-- Constant `PLANT_OPTIMAL_TEMPERATURE = 0.65` (via `PlantGenes`). -/
noncomputable def PLANT_OPTIMAL_TEMPERATURE : ℝ := 13 / 20

/-- Constant `PLANT_TEMPERATURE_TOLERANCE = 0.2` (via `PlantGenes`). -/
noncomputable def PLANT_TEMPERATURE_TOLERANCE : ℝ := 1 / 5

/-- Constant `PLANT_OPTIMAL_HUMIDITY = 0.6` (via `PlantGenes`). -/
noncomputable def PLANT_OPTIMAL_HUMIDITY : ℝ := 3 / 5

/-- Constant `PLANT_HUMIDITY_TOLERANCE = 0.3` (via `PlantGenes`). -/
noncomputable def PLANT_HUMIDITY_TOLERANCE : ℝ := 3 / 10

/-- Constant `PLANT_ROOT_EFFICIENCY_FACTOR = 2.0`. -/
noncomputable def PLANT_ROOT_EFFICIENCY_FACTOR : ℝ := 2

/-- Derived constant `PLANT_BIOMASS_ENERGY_COST = 18000000 * 0.1 / 10000 =
180` joules per square centimetre. -/
noncomputable def PLANT_BIOMASS_ENERGY_COST : ℝ := 180

/-- Derived constant `PLANT_CORE_BIOMASS_ENERGY_COST = 180 * 8 = 1440`. -/
noncomputable def PLANT_CORE_BIOMASS_ENERGY_COST : ℝ := 1440

/-- Derived constant `PLANT_PHOTOSYNTHESIS_PER_AREA = 1000 * 0.03 / 10000 =
0.003`. -/
noncomputable def PLANT_PHOTOSYNTHESIS_PER_AREA : ℝ := 3 / 1000

/-- Constant `PLANT_BASE_MAINTENANCE_RESPIRATION_PER_AREA = 0.00075`. -/
noncomputable def PLANT_BASE_MAINTENANCE_RESPIRATION_PER_AREA : ℝ := 3 / 4000

/-- Constant `PLANT_Q10_FACTOR = 2.0`. -/
noncomputable def PLANT_Q10_FACTOR : ℝ := 2

/-- Constant `PLANT_RESPIRATION_REFERENCE_TEMP = 0.5`. -/
noncomputable def PLANT_RESPIRATION_REFERENCE_TEMP : ℝ := 1 / 2

/-- Constant `PLANT_Q10_INTERVAL_DIVISOR = 0.2`. -/
noncomputable def PLANT_Q10_INTERVAL_DIVISOR : ℝ := 1 / 5

/-- Constant `TERRAIN_WATER_LEVEL = 0.31`. -/
noncomputable def TERRAIN_WATER_LEVEL : ℝ := 31 / 100

/-- Constant `TERRAIN_SAND_LEVEL = 0.32`. -/
noncomputable def TERRAIN_SAND_LEVEL : ℝ := 8 / 25

/-- Constant `TERRAIN_GRASS_LEVEL = 0.57`. -/
noncomputable def TERRAIN_GRASS_LEVEL : ℝ := 57 / 100

/-- Constant `TERRAIN_DIRT_LEVEL = 0.59`. -/
noncomputable def TERRAIN_DIRT_LEVEL : ℝ := 59 / 100

/-- Constant `PLANT_SEED_ROLL_BASE_DISTANCE_CM = 20.0`. -/
noncomputable def PLANT_SEED_ROLL_BASE_DISTANCE_CM : ℝ := 20

/-- Constant `PLANT_SEED_ROLL_DISTANCE_FACTOR = 5000.0`. -/
noncomputable def PLANT_SEED_ROLL_DISTANCE_FACTOR : ℝ := 5000

/-- Constant `PLANT_CORE_PERSONAL_SPACE_FACTOR = 1.5`. -/
noncomputable def PLANT_CORE_PERSONAL_SPACE_FACTOR : ℝ := 3 / 2

/-- Modelled from the spec: the growth-allocation policy constants
`PLANT_STABLE_CORE_INVESTMENT_RATIO`,
`PLANT_IDEAL_CORE_TO_CANOPY_AREA_RATIO`, `PLANT_MIN_CORE_TO_CANOPY_RATIO`
and `PLANT_CRUSH_CHECK_GROWTH_THRESHOLD_CM` are read by
`src/creatures.py` but their values are absent from `src/constants.py`, so
they are carried as parameters; no verified property depends on their
values. -/
structure BioParams where
  stable_core_investment : ℝ
  ideal_core_to_canopy : ℝ
  min_core_to_canopy : ℝ
  crush_check_threshold : ℝ

/-- The state of one plant: the `Plant` object attributes plus the manager
rows it owns (see the module comment). -/
structure PlantState where
  x : ℝ
  y : ℝ
  energy : ℝ
  age : ℝ
  is_alive : Bool
  life_stage : LifeStage
  radius : ℝ
  height : ℝ
  root_radius : ℝ
  core_radius : ℝ
  radius_to_height_factor : ℝ
  reproductive_energy_stored : ℝ
  organ_count : ℕ
  has_reached_self_sufficiency : Bool
  shaded_canopy_area : ℝ
  overlapped_root_area : ℝ
  core_growth_since_crush_check : ℝ
  elevation : ℝ
  soil_type : Option SoilKind
  temperature : ℝ
  humidity : ℝ
  soil_eff : ℝ
  aging_eff : ℝ
  hydraulic_eff : ℝ
  environmental_eff : ℝ
  photosynthesis_gain_per_second : ℝ
  metabolism_cost_per_second : ℝ

/-- Embedding of `Creature.die`: terminal, idempotent; the
`world.report_death` notification (graveyard and statistics) acts on the
orchestrator, not on this state. -/
def plantDie (p : PlantState) : PlantState :=
  if p.is_alive then { p with is_alive := false } else p

theorem plantDie_is_alive (p : PlantState) : (plantDie p).is_alive = false := by
  unfold plantDie
  by_cases h : p.is_alive
  · rw [if_pos h]
  · rw [if_neg h]
    simpa using h

theorem plantDie_energy (p : PlantState) : (plantDie p).energy = p.energy := by
  unfold plantDie
  split <;> rfl

/-- External terrain collaborator: `elevation`, `temperature` and
`humidity` are deterministic pure functions of world coordinates (spec
section 6). -/
structure EnvM where
  elevation : ℝ → ℝ → ℝ
  temperature : ℝ → ℝ → ℝ
  humidity : ℝ → ℝ → ℝ

/-- Embedding of `Plant.get_soil_type`: half-open elevation bands for sand,
grass and dirt; anything else (water, or at and above the dirt level) is
`none`. -/
noncomputable def getSoilType (elevation : ℝ) : Option SoilKind :=
  if TERRAIN_WATER_LEVEL ≤ elevation ∧ elevation < TERRAIN_SAND_LEVEL then some .sand
  else if TERRAIN_SAND_LEVEL ≤ elevation ∧ elevation < TERRAIN_GRASS_LEVEL then some .grass
  else if TERRAIN_GRASS_LEVEL ≤ elevation ∧ elevation < TERRAIN_DIRT_LEVEL then some .dirt
  else none

/-- Lookup `self.genes.soil_efficiency.get(self.soil_type, 0)` with the
`PLANT_SOIL_EFFICIENCY` table `sand 0.4, grass 1.0, dirt 0.7`. -/
noncomputable def soilEffOf : Option SoilKind → ℝ
  | some .sand => 2 / 5
  | some .grass => 1
  | some .dirt => 7 / 10
  | none => 0

/-- Embedding of `Plant.__init__`: a fresh seed at `(x, y)`.  When the
cached elevation resolves to no valid soil type the constructor body marks
the object dead with zero energy and returns early (so the temperature and
humidity attributes are never sampled; the model leaves them zero). -/
noncomputable def mkPlant (env : EnvM) (x y initial_energy : ℝ) : PlantState :=
  let elevation := env.elevation x y
  let soil := getSoilType elevation
  let base : PlantState :=
    { x := x, y := y, energy := initial_energy, age := 0, is_alive := true,
      life_stage := .seed, radius := 0, height := 0, root_radius := 0, core_radius := 0,
      radius_to_height_factor := PLANT_RADIUS_TO_HEIGHT_FACTOR,
      reproductive_energy_stored := 0, organ_count := 0,
      has_reached_self_sufficiency := false,
      shaded_canopy_area := 0, overlapped_root_area := 0,
      core_growth_since_crush_check := 0,
      elevation := elevation, soil_type := soil,
      temperature := 0, humidity := 0,
      soil_eff := 1, aging_eff := 1, hydraulic_eff := 1, environmental_eff := 1,
      photosynthesis_gain_per_second := 0, metabolism_cost_per_second := 0 }
  if soil = none then { base with is_alive := false, energy := 0 }
  else { base with temperature := env.temperature x y, humidity := env.humidity x y }

/-- Embedding of `Plant._patch_all_rates_after_sprout`: recompute all six
derived rates for this plant alone and write them into its manager rows
(no shade and no root competition at sprout time). -/
noncomputable def patchAllRatesAfterSprout (p : PlantState) : PlantState :=
  let aging := Real.exp (-(p.age / PLANT_SENESCENCE_TIMESCALE_SECONDS))
  let hydra := Real.exp (-(p.height / PLANT_MAX_HYDRAULIC_HEIGHT_CM))
  let temp_diff := |p.temperature - PLANT_OPTIMAL_TEMPERATURE|
  let temp_eff := Real.exp (-((temp_diff / PLANT_TEMPERATURE_TOLERANCE) ^ 2))
  let hum_diff := |p.humidity - PLANT_OPTIMAL_HUMIDITY|
  let hum_eff := Real.exp (-((hum_diff / PLANT_HUMIDITY_TOLERANCE) ^ 2))
  let environmental_efficiency := temp_eff * hum_eff
  let max_soil_eff := soilEffOf p.soil_type
  let ratio_modifier := min 1 (p.root_radius / (p.radius + 1) * PLANT_ROOT_EFFICIENCY_FACTOR)
  let soil_efficiency := max_soil_eff * ratio_modifier * 1
  let canopy_area := Real.pi * p.radius ^ 2
  let root_area := Real.pi * p.root_radius ^ 2
  let core_area := Real.pi * p.core_radius ^ 2
  let total_area := canopy_area + root_area + core_area
  let respiration_factor :=
    PLANT_Q10_FACTOR ^
      ((p.temperature - PLANT_RESPIRATION_REFERENCE_TEMP) / PLANT_Q10_INTERVAL_DIVISOR)
  let metabolism_cost_per_second :=
    total_area * PLANT_BASE_MAINTENANCE_RESPIRATION_PER_AREA * respiration_factor
  let photosynthesis_gain_per_second :=
    canopy_area * PLANT_PHOTOSYNTHESIS_PER_AREA * environmental_efficiency *
      soil_efficiency * aging * hydra
  { p with
    aging_eff := aging, hydraulic_eff := hydra,
    environmental_eff := environmental_efficiency, soil_eff := soil_efficiency,
    metabolism_cost_per_second := metabolism_cost_per_second,
    photosynthesis_gain_per_second := photosynthesis_gain_per_second }

/-- Embedding of `Plant._update_seed`: pay the dormancy cost, die on
`energy <= 0`, then sprout when the germination gate and the
`energy >= PLANT_SPROUTING_ENERGY_COST` check pass (paying the sprout cost,
setting the sprout geometry and patching all rates). -/
noncomputable def updateSeed (p : PlantState) (time_step : ℝ) : PlantState :=
  let dormancy_cost := PLANT_DORMANCY_METABOLISM_J_PER_HOUR / SECONDS_PER_HOUR * time_step
  let p1 := { p with energy := p.energy - dormancy_cost }
  if p1.energy ≤ 0 then plantDie p1
  else
    if (GERMINATION_MIN_TEMP ≤ p1.temperature ∧ p1.temperature ≤ GERMINATION_MAX_TEMP) ∧
        GERMINATION_HUMIDITY_THRESHOLD ≤ p1.humidity then
      if PLANT_SPROUTING_ENERGY_COST ≤ p1.energy then
        let p2 := { p1 with
          energy := p1.energy - PLANT_SPROUTING_ENERGY_COST,
          life_stage := .seedling,
          radius := PLANT_SPROUT_RADIUS_CM,
          root_radius := PLANT_SPROUT_RADIUS_CM,
          core_radius := PLANT_SPROUT_CORE_RADIUS_CM }
        let p3 := { p2 with height := p2.radius * p2.radius_to_height_factor }
        patchAllRatesAfterSprout p3
      else p1
    else p1

/-- The tuple `Plant._calculate_energy_balance` returns, together with the
plant state whose morphology factor it adapted. -/
structure EnergyBalance where
  net : ℝ
  gain : ℝ
  cost : ℝ
  canopy_area : ℝ
  root_area : ℝ
  core_area : ℝ
  plant : PlantState

/-- Embedding of `Plant._calculate_energy_balance`: compute the three
areas, adapt `radius_to_height_factor` toward the shade-dependent target,
and scale the precomputed per-second gain and cost rates by the time
step. -/
noncomputable def calcEnergyBalance (p : PlantState) (time_step : ℝ) : EnergyBalance :=
  let canopy_area := Real.pi * p.radius ^ 2
  let root_area := Real.pi * p.root_radius ^ 2
  let core_area := Real.pi * p.core_radius ^ 2
  let shade_ratio := if 0 < canopy_area then p.shaded_canopy_area / canopy_area else 0
  let target_factor := PLANT_RADIUS_TO_HEIGHT_FACTOR +
    (PLANT_MAX_SHADE_RADIUS_TO_HEIGHT_FACTOR - PLANT_RADIUS_TO_HEIGHT_FACTOR) * shade_ratio
  let p1 := { p with radius_to_height_factor := p.radius_to_height_factor +
      (target_factor - p.radius_to_height_factor) * PLANT_MORPHOLOGY_ADAPTATION_RATE }
  let photosynthesis_gain := p1.photosynthesis_gain_per_second * time_step
  let metabolism_cost := p1.metabolism_cost_per_second * time_step
  { net := photosynthesis_gain - metabolism_cost,
    gain := photosynthesis_gain, cost := metabolism_cost,
    canopy_area := canopy_area, root_area := root_area, core_area := core_area,
    plant := p1 }

/-- Embedding of `Plant._process_self_pruning`: convert the energy deficit
into an area to shed, shed it proportionally from canopy, roots and core,
recompute the radii and height, and return the new net production, which is
always zero. -/
noncomputable def processSelfPruning (p : PlantState)
    (energy_deficit canopy_area root_area core_area time_step : ℝ) : PlantState × ℝ :=
  let total_sheddable_area := canopy_area + root_area + core_area
  let maintenance_cost_per_area_tick :=
    if 0 < total_sheddable_area then
      p.metabolism_cost_per_second / total_sheddable_area * time_step
    else 0
  if 0 < maintenance_cost_per_area_tick then
    let area_to_shed := energy_deficit / maintenance_cost_per_area_tick * PLANT_PRUNING_EFFICIENCY
    if 0 < total_sheddable_area then
      let canopy_fraction := canopy_area / total_sheddable_area
      let root_fraction := root_area / total_sheddable_area
      let core_fraction := core_area / total_sheddable_area
      let new_canopy_area := max 0 (canopy_area - area_to_shed * canopy_fraction)
      let new_root_area := max 0 (root_area - area_to_shed * root_fraction)
      let new_core_area := max 0 (core_area - area_to_shed * core_fraction)
      let radius := Real.sqrt (new_canopy_area / Real.pi)
      ({ p with
          radius := radius,
          root_radius := Real.sqrt (new_root_area / Real.pi),
          core_radius := Real.sqrt (new_core_area / Real.pi),
          height := radius * p.radius_to_height_factor }, 0)
    else (p, 0)
  else (p, 0)

/-- Truncation of a real toward zero (Python `int()` on these float
expressions). -/
noncomputable def pyIntR (q : ℝ) : ℤ := if q < 0 then -(Int.floor (-q)) else Int.floor q

/-- The reproductive-investment section of `_allocate_surplus_energy`: the
interior of the block the source guards with
`if self.life_stage == "mature" and False:`. -/
noncomputable def allocReproInvest (p : PlantState) (canopy_area time_step : ℝ) : PlantState :=
  let desired := PLANT_REPRODUCTIVE_INVESTMENT_J_PER_HOUR / SECONDS_PER_HOUR * time_step
  let available := max 0 (p.energy - PLANT_GROWTH_INVESTMENT_ENERGY_RESERVE)
  let actual := min desired available
  if 0 < actual then
    let q := { p with
      energy := p.energy - actual,
      reproductive_energy_stored := p.reproductive_energy_stored + actual }
    let num_from_energy := pyIntR (q.reproductive_energy_stored / PLANT_FLOWER_ENERGY_COST)
    let max_flowers := pyIntR (canopy_area * PLANT_MAX_FLOWERS_PER_CANOPY_AREA)
    let allowed := max 0 (max_flowers - (q.organ_count : ℤ))
    let num_new_flowers := min num_from_energy allowed
    if 0 < num_new_flowers then
      { q with
        reproductive_energy_stored :=
          q.reproductive_energy_stored - (num_new_flowers : ℝ) * PLANT_FLOWER_ENERGY_COST,
        organ_count := q.organ_count + num_new_flowers.toNat }
    else q
  else p

/-- The structural-growth section of `_allocate_surplus_energy` for a
positive growth-energy pool: split it between core and canopy/root
according to the core-to-canopy policy, grow the radii, and run the
crush-check accumulator.  The crush check kills small neighbours found by
a quadtree query, which acts on other organisms, not on this state. -/
noncomputable def allocGrowthInvest (bp : BioParams) (p2 : PlantState)
    (growth_energy canopy_area root_area core_area : ℝ) : PlantState :=
  let core_investment :=
    if 1 < canopy_area then
      if core_area / canopy_area < bp.ideal_core_to_canopy then growth_energy
      else growth_energy * bp.stable_core_investment
    else growth_energy * bp.stable_core_investment
  let canopy_root_investment :=
    if 1 < canopy_area then
      if core_area / canopy_area < bp.ideal_core_to_canopy then 0
      else growth_energy * (1 - bp.stable_core_investment)
    else growth_energy * (1 - bp.stable_core_investment)
  let total_limitation := p2.environmental_eff + p2.soil_eff
  if 0 < total_limitation then
    let old_core_radius : ℝ := p2.core_radius
    let p3 : PlantState :=
      if 0 < core_investment then
        { p2 with
          core_radius := Real.sqrt
            ((Real.pi * p2.core_radius ^ 2 + core_investment / PLANT_CORE_BIOMASS_ENERGY_COST) /
              Real.pi) }
      else p2
    let p4 : PlantState :=
      if 0 < canopy_root_investment then
        let added_biomass_area := canopy_root_investment / PLANT_BIOMASS_ENERGY_COST
        let canopy_alloc_factor := p3.soil_eff / total_limitation
        let root_alloc_factor := p3.environmental_eff / total_limitation
        let radius := Real.sqrt ((canopy_area + added_biomass_area * canopy_alloc_factor) / Real.pi)
        { p3 with
          radius := radius,
          root_radius :=
            Real.sqrt ((root_area + added_biomass_area * root_alloc_factor) / Real.pi),
          height := radius * p3.radius_to_height_factor }
      else p3
    if old_core_radius < p4.core_radius then
      let p5 : PlantState := { p4 with core_growth_since_crush_check :=
          p4.core_growth_since_crush_check + (p4.core_radius - old_core_radius) }
      if bp.crush_check_threshold ≤ p5.core_growth_since_crush_check then
        { p5 with core_growth_since_crush_check := 0 }
      else p5
    else p4
  else p2

/-- Embedding of `Plant._allocate_surplus_energy`: the reproductive block
(guarded by `life_stage == "mature" and False`, reproduced verbatim), the
reserve investment draw, and the growth allocation. -/
noncomputable def allocateSurplusEnergy (bp : BioParams) (p : PlantState)
    (net_energy_production canopy_area root_area core_area time_step : ℝ) : PlantState :=
  let p1 :=
    if p.life_stage = LifeStage.mature ∧ False then allocReproInvest p canopy_area time_step
    else p
  let investment_from_reserves :=
    if PLANT_GROWTH_INVESTMENT_ENERGY_RESERVE < p1.energy then
      min (PLANT_GROWTH_INVESTMENT_J_PER_HOUR / SECONDS_PER_HOUR * time_step)
        (p1.energy - PLANT_GROWTH_INVESTMENT_ENERGY_RESERVE)
    else 0
  let p2 := { p1 with energy := p1.energy - investment_from_reserves }
  let growth_energy := max 0 net_energy_production + investment_from_reserves
  if 0 < growth_energy then
    allocGrowthInvest bp p2 growth_energy canopy_area root_area core_area
  else p2

/-- The tail of `Plant._update_growing_plant` after the deficit/surplus
branch: add the (possibly replaced) net production to the stored energy,
die of starvation at `energy <= 0`, otherwise record self-sufficiency and
the transition to the mature stage on the first strictly positive net. -/
noncomputable def finishGrowingTick (p : PlantState) (net_energy_production : ℝ) : PlantState :=
  let p1 := { p with energy := p.energy + net_energy_production }
  if p1.energy ≤ 0 then plantDie p1
  else
    if p1.has_reached_self_sufficiency = false ∧ 0 < net_energy_production then
      { p1 with has_reached_self_sufficiency := true, life_stage := .mature }
    else p1

/-- Embedding of `Plant._update_growing_plant` (the shared
seedling/mature tick): compute the energy balance; on a deficit either
absorb it from reserves (energy above the growth reserve) or self-prune
(dying of `pruning_collapse` when the canopy radius drops below 0.1);
on a surplus run the allocation; then the common energy/starvation/life
stage tail. -/
noncomputable def updateGrowingPlant (bp : BioParams) (p : PlantState) (time_step : ℝ) :
    PlantState :=
  let eb := calcEnergyBalance p time_step
  if eb.net < 0 then
    if PLANT_GROWTH_INVESTMENT_ENERGY_RESERVE < eb.plant.energy then
      finishGrowingTick eb.plant eb.net
    else
      let pr := processSelfPruning eb.plant |eb.net| eb.canopy_area eb.root_area eb.core_area
        time_step
      if pr.1.radius < 1 / 10 then plantDie pr.1
      else finishGrowingTick pr.1 pr.2
  else
    finishGrowingTick
      (allocateSurplusEnergy bp eb.plant eb.net eb.canopy_area eb.root_area eb.core_area time_step)
      eb.net

/-- A neighbouring plant as returned by the quadtree query in
`_disperse_seed`: its position and core radius (for
`get_personal_space_radius`). -/
structure NeighborP where
  x : ℝ
  y : ℝ
  core_radius : ℝ

/-- Step 1 of `Plant._disperse_seed`: project the fruit growth spot onto
the canopy circumference ("fall and bounce"); a fruit grown at the exact
centre picks a random edge angle, supplied here as the oracle
`rand_angle1`. -/
noncomputable def fruitDropPoint (p : PlantState) (fruit_x fruit_y rand_angle1 : ℝ) : ℝ × ℝ :=
  let vec_x := fruit_x - p.x
  let vec_y := fruit_y - p.y
  let dist_from_center := Real.sqrt (vec_x ^ 2 + vec_y ^ 2)
  if 0 < dist_from_center then
    (p.x + vec_x / dist_from_center * p.radius, p.y + vec_y / dist_from_center * p.radius)
  else
    (p.x + p.radius * Real.cos rand_angle1, p.y + p.radius * Real.sin rand_angle1)

/-- Steps 2 and 3 of `Plant._disperse_seed`: sample the local elevation
gradient at the drop point and roll the fruit downhill (or in the random
direction `rand_angle2` on flat ground). -/
noncomputable def seedRollTarget (env : EnvM) (p : PlantState)
    (fruit_x fruit_y rand_angle1 rand_angle2 : ℝ) : ℝ × ℝ :=
  let drop := fruitDropPoint p fruit_x fruit_y rand_angle1
  let e_north := env.elevation drop.1 (drop.2 - 10)
  let e_south := env.elevation drop.1 (drop.2 + 10)
  let e_east := env.elevation (drop.1 + 10) drop.2
  let e_west := env.elevation (drop.1 - 10) drop.2
  let grad_y := e_north - e_south
  let grad_x := e_west - e_east
  let magnitude := Real.sqrt (grad_x ^ 2 + grad_y ^ 2)
  if 1 / 1000 < magnitude then
    (drop.1 + grad_x / magnitude *
        (PLANT_SEED_ROLL_BASE_DISTANCE_CM + magnitude * PLANT_SEED_ROLL_DISTANCE_FACTOR),
     drop.2 + grad_y / magnitude *
        (PLANT_SEED_ROLL_BASE_DISTANCE_CM + magnitude * PLANT_SEED_ROLL_DISTANCE_FACTOR))
  else
    (drop.1 + Real.cos rand_angle2 * PLANT_SEED_ROLL_BASE_DISTANCE_CM,
     drop.2 + Real.sin rand_angle2 * PLANT_SEED_ROLL_BASE_DISTANCE_CM)

/-- Embedding of `Plant._disperse_seed`: roll the dropped fruit to its
landing point, fail (`None`) when it lands in water or inside the personal
space of a neighbour found by the quadtree query (passed as `neighbors`),
otherwise construct the new `Plant` seed there with the provisioning
energy. -/
noncomputable def disperseSeed (env : EnvM) (neighbors : List NeighborP) (p : PlantState)
    (fruit_x fruit_y rand_angle1 rand_angle2 : ℝ) : Option PlantState :=
  let final := seedRollTarget env p fruit_x fruit_y rand_angle1 rand_angle2
  if env.elevation final.1 final.2 < TERRAIN_WATER_LEVEL then none
  else if neighbors.any fun nb =>
      decide ((final.1 - nb.x) ^ 2 + (final.2 - nb.y) ^ 2 <
        (nb.core_radius * PLANT_CORE_PERSONAL_SPACE_FACTOR) ^ 2) then none
  else some (mkPlant env final.1 final.2 PLANT_SEED_PROVISIONING_ENERGY)

/-- The body of the fruit-drop loop of `Plant.update` for one ready fruit:
when the parent holds at least the provisioning energy, attempt dispersal;
on success deduct `PLANT_SEED_PROVISIONING_ENERGY` and hand the new seed to
`world.add_newborn` (returned here as the newborn list); a failed dispersal
costs nothing. -/
noncomputable def dropFruit (env : EnvM) (neighbors : List NeighborP) (p : PlantState)
    (fruit_x fruit_y rand_angle1 rand_angle2 : ℝ) : PlantState × List PlantState :=
  if PLANT_SEED_PROVISIONING_ENERGY ≤ p.energy then
    match disperseSeed env neighbors p fruit_x fruit_y rand_angle1 rand_angle2 with
    | some new_seed =>
        ({ p with energy := p.energy - PLANT_SEED_PROVISIONING_ENERGY }, [new_seed])
    | none => (p, [])
  else (p, [])

theorem calcEnergyBalance_plant_energy (p : PlantState) (dt : ℝ) :
    (calcEnergyBalance p dt).plant.energy = p.energy := rfl

theorem calcEnergyBalance_plant_radius (p : PlantState) (dt : ℝ) :
    (calcEnergyBalance p dt).plant.radius = p.radius := rfl

theorem calcEnergyBalance_plant_root_radius (p : PlantState) (dt : ℝ) :
    (calcEnergyBalance p dt).plant.root_radius = p.root_radius := rfl

theorem calcEnergyBalance_plant_core_radius (p : PlantState) (dt : ℝ) :
    (calcEnergyBalance p dt).plant.core_radius = p.core_radius := rfl

theorem calcEnergyBalance_canopy_area (p : PlantState) (dt : ℝ) :
    (calcEnergyBalance p dt).canopy_area = Real.pi * p.radius ^ 2 := rfl

theorem calcEnergyBalance_root_area (p : PlantState) (dt : ℝ) :
    (calcEnergyBalance p dt).root_area = Real.pi * p.root_radius ^ 2 := rfl

theorem calcEnergyBalance_core_area (p : PlantState) (dt : ℝ) :
    (calcEnergyBalance p dt).core_area = Real.pi * p.core_radius ^ 2 := rfl

theorem plantDie_radius (p : PlantState) : (plantDie p).radius = p.radius := by
  unfold plantDie
  split <;> rfl

theorem plantDie_root_radius (p : PlantState) : (plantDie p).root_radius = p.root_radius := by
  unfold plantDie
  split <;> rfl

theorem plantDie_core_radius (p : PlantState) : (plantDie p).core_radius = p.core_radius := by
  unfold plantDie
  split <;> rfl

theorem processSelfPruning_snd (p : PlantState) (deficit cA rA coA dt : ℝ) :
    (processSelfPruning p deficit cA rA coA dt).2 = 0 := by
  simp only [processSelfPruning]
  split_ifs <;> rfl

theorem processSelfPruning_energy (p : PlantState) (deficit cA rA coA dt : ℝ) :
    (processSelfPruning p deficit cA rA coA dt).1.energy = p.energy := by
  simp only [processSelfPruning]
  split_ifs <;> rfl

theorem finishGrowingTick_energy (p : PlantState) (net : ℝ) :
    (finishGrowingTick p net).energy = p.energy + net := by
  simp only [finishGrowingTick]
  split_ifs <;> simp [plantDie_energy]

theorem finishGrowingTick_radius (p : PlantState) (net : ℝ) :
    (finishGrowingTick p net).radius = p.radius := by
  simp only [finishGrowingTick]
  split_ifs <;> simp [plantDie_radius]

theorem finishGrowingTick_root_radius (p : PlantState) (net : ℝ) :
    (finishGrowingTick p net).root_radius = p.root_radius := by
  simp only [finishGrowingTick]
  split_ifs <;> simp [plantDie_root_radius]

theorem finishGrowingTick_core_radius (p : PlantState) (net : ℝ) :
    (finishGrowingTick p net).core_radius = p.core_radius := by
  simp only [finishGrowingTick]
  split_ifs <;> simp [plantDie_core_radius]

theorem finishGrowingTick_alive_pos (p : PlantState) (net : ℝ)
    (h : (finishGrowingTick p net).is_alive = true) : 0 < (finishGrowingTick p net).energy := by
  simp only [finishGrowingTick] at h ⊢
  split_ifs at h ⊢ with h1 h2
  · rw [plantDie_is_alive] at h
    exact absurd h (by simp)
  · simpa using not_le.mp h1
  · simpa using not_le.mp h1

set_option maxHeartbeats 1000000 in
/-- Claim C8 (code side): `_allocate_surplus_energy` never changes the
stored reproductive energy or the flower count of any plant, because the
entire reproductive block is guarded by
`if self.life_stage == "mature" and False:`. -/
theorem claim_C8_reproduction_block_disabled (bp : BioParams) (p : PlantState)
    (net cA rA coA dt : ℝ) :
    (allocateSurplusEnergy bp p net cA rA coA dt).reproductive_energy_stored =
      p.reproductive_energy_stored ∧
    (allocateSurplusEnergy bp p net cA rA coA dt).organ_count = p.organ_count := by
  have hg : ∀ (q : PlantState) (ge cA2 rA2 coA2 : ℝ),
      (allocGrowthInvest bp q ge cA2 rA2 coA2).reproductive_energy_stored =
        q.reproductive_energy_stored ∧
      (allocGrowthInvest bp q ge cA2 rA2 coA2).organ_count = q.organ_count := by
    intro q ge cA2 rA2 coA2
    refine ⟨?_, ?_⟩ <;>
      (simp only [allocGrowthInvest]
       split_ifs <;> rfl)
  refine ⟨?_, ?_⟩ <;>
    (simp only [allocateSurplusEnergy, and_false, if_false]
     split_ifs <;>
       first
       | rfl
       | rw [(hg _ _ _ _ _).1]
       | rw [(hg _ _ _ _ _).2])

theorem sqrt_shed_le (a s : ℝ) (ha : 0 ≤ a) (hs : 0 ≤ s) :
    Real.sqrt (max 0 (Real.pi * a ^ 2 - s) / Real.pi) ≤ a := by
  have hpi : (0:ℝ) < Real.pi := Real.pi_pos
  have h2 : max 0 (Real.pi * a ^ 2 - s) / Real.pi ≤ a ^ 2 := by
    rw [div_le_iff₀ hpi]
    calc max 0 (Real.pi * a ^ 2 - s) ≤ Real.pi * a ^ 2 := max_le (by positivity) (by linarith)
      _ = a ^ 2 * Real.pi := by ring
  calc Real.sqrt (max 0 (Real.pi * a ^ 2 - s) / Real.pi) ≤ Real.sqrt (a ^ 2) :=
        Real.sqrt_le_sqrt h2
    _ = a := Real.sqrt_sq ha

theorem processSelfPruning_radii_le (p : PlantState) (deficit dt : ℝ)
    (hdef : 0 ≤ deficit) (hr : 0 ≤ p.radius) (hrr : 0 ≤ p.root_radius) (hcr : 0 ≤ p.core_radius) :
    (processSelfPruning p deficit (Real.pi * p.radius ^ 2) (Real.pi * p.root_radius ^ 2)
        (Real.pi * p.core_radius ^ 2) dt).1.radius ≤ p.radius ∧
    (processSelfPruning p deficit (Real.pi * p.radius ^ 2) (Real.pi * p.root_radius ^ 2)
        (Real.pi * p.core_radius ^ 2) dt).1.root_radius ≤ p.root_radius ∧
    (processSelfPruning p deficit (Real.pi * p.radius ^ 2) (Real.pi * p.root_radius ^ 2)
        (Real.pi * p.core_radius ^ 2) dt).1.core_radius ≤ p.core_radius := by
  simp only [processSelfPruning]
  split_ifs with ht hm hm
  · -- positive maintenance cost and positive total area: real shedding
    have htot : (0:ℝ) <
        Real.pi * p.radius ^ 2 + Real.pi * p.root_radius ^ 2 + Real.pi * p.core_radius ^ 2 := ht
    have hshed : 0 ≤ deficit /
        (p.metabolism_cost_per_second /
          (Real.pi * p.radius ^ 2 + Real.pi * p.root_radius ^ 2 + Real.pi * p.core_radius ^ 2) *
            dt) * PLANT_PRUNING_EFFICIENCY := by
      apply mul_nonneg
      · exact div_nonneg hdef (le_of_lt hm)
      · norm_num [PLANT_PRUNING_EFFICIENCY]
    refine ⟨?_, ?_, ?_⟩ <;>
      (apply sqrt_shed_le _ _ (by assumption)
       apply mul_nonneg hshed
       exact div_nonneg (by positivity) (le_of_lt htot))
  · exact ⟨le_refl _, le_refl _, le_refl _⟩
  · exact ⟨le_refl _, le_refl _, le_refl _⟩
  · exact ⟨le_refl _, le_refl _, le_refl _⟩

theorem calcEnergyBalance_plant_metab (p : PlantState) (dt : ℝ) :
    (calcEnergyBalance p dt).plant.metabolism_cost_per_second =
      p.metabolism_cost_per_second := rfl

/-- Claim C7: when self-pruning fires on a growing plant tick (negative net
energy and stored energy at or below the growth reserve), the
biomass-shedding step leaves stored energy unchanged, the net production is
replaced by exactly zero, and the canopy, root and core radii do not
increase. -/
theorem claim_C7_pruning_pays_in_area (bp : BioParams) (p : PlantState) (dt : ℝ)
    (hr : 0 ≤ p.radius) (hrr : 0 ≤ p.root_radius) (hcr : 0 ≤ p.core_radius)
    (hnet : (calcEnergyBalance p dt).net < 0)
    (hres : ¬ PLANT_GROWTH_INVESTMENT_ENERGY_RESERVE < p.energy) :
    (updateGrowingPlant bp p dt).energy = p.energy ∧
    (processSelfPruning (calcEnergyBalance p dt).plant |(calcEnergyBalance p dt).net|
        (calcEnergyBalance p dt).canopy_area (calcEnergyBalance p dt).root_area
        (calcEnergyBalance p dt).core_area dt).2 = 0 ∧
    (updateGrowingPlant bp p dt).radius ≤ p.radius ∧
    (updateGrowingPlant bp p dt).root_radius ≤ p.root_radius ∧
    (updateGrowingPlant bp p dt).core_radius ≤ p.core_radius := by
  have hres' : ¬ PLANT_GROWTH_INVESTMENT_ENERGY_RESERVE <
      (calcEnergyBalance p dt).plant.energy := by
    rw [calcEnergyBalance_plant_energy]
    exact hres
  have hareas :
      (calcEnergyBalance p dt).canopy_area =
        Real.pi * (calcEnergyBalance p dt).plant.radius ^ 2 ∧
      (calcEnergyBalance p dt).root_area =
        Real.pi * (calcEnergyBalance p dt).plant.root_radius ^ 2 ∧
      (calcEnergyBalance p dt).core_area =
        Real.pi * (calcEnergyBalance p dt).plant.core_radius ^ 2 := ⟨rfl, rfl, rfl⟩
  have hradii := processSelfPruning_radii_le (calcEnergyBalance p dt).plant
    |(calcEnergyBalance p dt).net| dt (abs_nonneg _)
    (by rw [calcEnergyBalance_plant_radius]; exact hr)
    (by rw [calcEnergyBalance_plant_root_radius]; exact hrr)
    (by rw [calcEnergyBalance_plant_core_radius]; exact hcr)
  simp only [updateGrowingPlant]
  rw [if_pos hnet, if_neg hres']
  rw [hareas.1, hareas.2.1, hareas.2.2]
  set pr := processSelfPruning (calcEnergyBalance p dt).plant |(calcEnergyBalance p dt).net|
    (Real.pi * (calcEnergyBalance p dt).plant.radius ^ 2)
    (Real.pi * (calcEnergyBalance p dt).plant.root_radius ^ 2)
    (Real.pi * (calcEnergyBalance p dt).plant.core_radius ^ 2) dt with hpr
  have hprsnd : pr.2 = 0 := processSelfPruning_snd _ _ _ _ _ _
  have hpren : pr.1.energy = p.energy := by
    rw [hpr, processSelfPruning_energy, calcEnergyBalance_plant_energy]
  by_cases hsmall : pr.1.radius < 1 / 10
  · rw [if_pos hsmall]
    refine ⟨?_, hprsnd, ?_, ?_, ?_⟩
    · rw [plantDie_energy, hpren]
    · rw [plantDie_radius]
      exact le_trans hradii.1 (le_of_eq (calcEnergyBalance_plant_radius p dt))
    · rw [plantDie_root_radius]
      exact le_trans hradii.2.1 (le_of_eq (calcEnergyBalance_plant_root_radius p dt))
    · rw [plantDie_core_radius]
      exact le_trans hradii.2.2 (le_of_eq (calcEnergyBalance_plant_core_radius p dt))
  · rw [if_neg hsmall]
    refine ⟨?_, hprsnd, ?_, ?_, ?_⟩
    · rw [finishGrowingTick_energy, hprsnd, hpren, add_zero]
    · rw [finishGrowingTick_radius]
      exact le_trans hradii.1 (le_of_eq (calcEnergyBalance_plant_radius p dt))
    · rw [finishGrowingTick_root_radius]
      exact le_trans hradii.2.1 (le_of_eq (calcEnergyBalance_plant_root_radius p dt))
    · rw [finishGrowingTick_core_radius]
      exact le_trans hradii.2.2 (le_of_eq (calcEnergyBalance_plant_core_radius p dt))

/-- A concrete deficit plant for the C7 witness: zero photosynthesis,
positive metabolism, low reserves. -/
noncomputable def deficitPlant : PlantState :=
  { x := 50000, y := 50000, energy := 5000, age := 0, is_alive := true,
    life_stage := .seedling, radius := 10, height := 20, root_radius := 10, core_radius := 2,
    radius_to_height_factor := PLANT_RADIUS_TO_HEIGHT_FACTOR,
    reproductive_energy_stored := 0, organ_count := 0,
    has_reached_self_sufficiency := false,
    shaded_canopy_area := 0, overlapped_root_area := 0,
    core_growth_since_crush_check := 0,
    elevation := 1 / 2, soil_type := some .grass, temperature := 3 / 5, humidity := 7 / 10,
    soil_eff := 1, aging_eff := 1, hydraulic_eff := 1, environmental_eff := 1,
    photosynthesis_gain_per_second := 0, metabolism_cost_per_second := 1 }

/-- Witness for the C7 claim at the concrete deficit plant. -/
theorem claim_C7_pruning_pays_in_area_witness :
    (updateGrowingPlant ⟨1 / 2, 1 / 10, 1 / 100, 5⟩ deficitPlant 3600).energy =
        deficitPlant.energy ∧
    (processSelfPruning (calcEnergyBalance deficitPlant 3600).plant
        |(calcEnergyBalance deficitPlant 3600).net|
        (calcEnergyBalance deficitPlant 3600).canopy_area
        (calcEnergyBalance deficitPlant 3600).root_area
        (calcEnergyBalance deficitPlant 3600).core_area 3600).2 = 0 ∧
    (updateGrowingPlant ⟨1 / 2, 1 / 10, 1 / 100, 5⟩ deficitPlant 3600).radius ≤
        deficitPlant.radius ∧
    (updateGrowingPlant ⟨1 / 2, 1 / 10, 1 / 100, 5⟩ deficitPlant 3600).root_radius ≤
        deficitPlant.root_radius ∧
    (updateGrowingPlant ⟨1 / 2, 1 / 10, 1 / 100, 5⟩ deficitPlant 3600).core_radius ≤
        deficitPlant.core_radius :=
  claim_C7_pruning_pays_in_area ⟨1 / 2, 1 / 10, 1 / 100, 5⟩ deficitPlant 3600
    (by norm_num [deficitPlant]) (by norm_num [deficitPlant]) (by norm_num [deficitPlant])
    (by norm_num [calcEnergyBalance, deficitPlant])
    (by norm_num [deficitPlant, PLANT_GROWTH_INVESTMENT_ENERGY_RESERVE])

theorem patchAllRatesAfterSprout_energy (p : PlantState) :
    (patchAllRatesAfterSprout p).energy = p.energy := rfl

theorem patchAllRatesAfterSprout_is_alive (p : PlantState) :
    (patchAllRatesAfterSprout p).is_alive = p.is_alive := rfl

theorem updateSeed_alive_energy (p : PlantState) (dt : ℝ)
    (h : (updateSeed p dt).is_alive = true) : 0 ≤ (updateSeed p dt).energy := by
  simp only [updateSeed] at h ⊢
  split_ifs at h ⊢ with h1 h2 h3
  · rw [plantDie_is_alive] at h
    exact absurd h (by simp)
  · rw [patchAllRatesAfterSprout_energy]
    simp only at h3 ⊢
    linarith
  · simp only at h1 ⊢
    linarith [not_le.mp h1]
  · simp only at h1 ⊢
    linarith [not_le.mp h1]

theorem updateGrowingPlant_alive_energy (bp : BioParams) (p : PlantState) (dt : ℝ)
    (h : (updateGrowingPlant bp p dt).is_alive = true) :
    0 < (updateGrowingPlant bp p dt).energy := by
  simp only [updateGrowingPlant] at h ⊢
  split_ifs at h ⊢ with h1 h2 h3
  · exact finishGrowingTick_alive_pos _ _ h
  · rw [plantDie_is_alive] at h
    exact absurd h (by simp)
  · exact finishGrowingTick_alive_pos _ _ h
  · exact finishGrowingTick_alive_pos _ _ h

/-- The C9 boundary seed: energy exactly one dormancy cost plus one
sprouting cost, germination conditions met. -/
noncomputable def seedC9 : PlantState :=
  { x := 50000, y := 50000, energy := 2010, age := 0, is_alive := true,
    life_stage := .seed, radius := 0, height := 0, root_radius := 0, core_radius := 0,
    radius_to_height_factor := PLANT_RADIUS_TO_HEIGHT_FACTOR,
    reproductive_energy_stored := 0, organ_count := 0,
    has_reached_self_sufficiency := false,
    shaded_canopy_area := 0, overlapped_root_area := 0,
    core_growth_since_crush_check := 0,
    elevation := 1 / 2, soil_type := some .grass, temperature := 3 / 5, humidity := 7 / 10,
    soil_eff := 1, aging_eff := 1, hydraulic_eff := 1, environmental_eff := 1,
    photosynthesis_gain_per_second := 0, metabolism_cost_per_second := 0 }

/-- Counterexample to claim C9 as stated: a seed with energy
`2010 = dormancy cost (10) + sprouting cost (2000)` at germination-friendly
temperature and humidity sprouts within one one-hour tick and returns alive
with stored energy exactly `0`, because the sprout check in `_update_seed`
uses `energy >= PLANT_SPROUTING_ENERGY_COST` and no death check follows. -/
theorem claim_C9_counterexample_exact_zero :
    (updateSeed seedC9 3600).is_alive = true ∧ (updateSeed seedC9 3600).energy = 0 := by
  have hd : PLANT_DORMANCY_METABOLISM_J_PER_HOUR / SECONDS_PER_HOUR * (3600:ℝ) = 10 := by
    norm_num [PLANT_DORMANCY_METABOLISM_J_PER_HOUR, SECONDS_PER_HOUR]
  simp only [updateSeed, hd]
  rw [if_neg (by norm_num [seedC9])]
  rw [if_pos (by norm_num [seedC9, GERMINATION_MIN_TEMP, GERMINATION_MAX_TEMP,
    GERMINATION_HUMIDITY_THRESHOLD])]
  rw [if_pos (by norm_num [seedC9, PLANT_SPROUTING_ENERGY_COST])]
  rw [patchAllRatesAfterSprout_energy, patchAllRatesAfterSprout_is_alive]
  norm_num [seedC9, PLANT_SPROUTING_ENERGY_COST]

/-- Claim C9, amended: whenever the per-tick update returns with
`is_alive` still true the stored energy is non-negative, and strictly
positive on the growing-plant path; the seed-sprouting path can return
alive with energy exactly zero (see the counterexample), so the strict
inequality of the original claim holds on every path except that
boundary. -/
theorem claim_C9_energy_nonneg_while_alive :
    (∀ (p : PlantState) (dt : ℝ),
      (updateSeed p dt).is_alive = true → 0 ≤ (updateSeed p dt).energy) ∧
    (∀ (bp : BioParams) (p : PlantState) (dt : ℝ),
      (updateGrowingPlant bp p dt).is_alive = true → 0 < (updateGrowingPlant bp p dt).energy) :=
  ⟨fun p dt h => updateSeed_alive_energy p dt h,
   fun bp p dt h => updateGrowingPlant_alive_energy bp p dt h⟩

theorem getSoilType_none_of_dirt {e : ℝ} (h : TERRAIN_DIRT_LEVEL ≤ e) : getSoilType e = none := by
  simp only [TERRAIN_DIRT_LEVEL] at h
  have h1 : ¬(TERRAIN_WATER_LEVEL ≤ e ∧ e < TERRAIN_SAND_LEVEL) := by
    rintro ⟨-, h2⟩
    simp only [TERRAIN_SAND_LEVEL] at h2
    linarith
  have h2 : ¬(TERRAIN_SAND_LEVEL ≤ e ∧ e < TERRAIN_GRASS_LEVEL) := by
    rintro ⟨-, h2⟩
    simp only [TERRAIN_GRASS_LEVEL] at h2
    linarith
  have h3 : ¬(TERRAIN_GRASS_LEVEL ≤ e ∧ e < TERRAIN_DIRT_LEVEL) := by
    rintro ⟨-, h2⟩
    simp only [TERRAIN_DIRT_LEVEL] at h2
    linarith
  unfold getSoilType
  rw [if_neg h1, if_neg h2, if_neg h3]

theorem mkPlant_dead (env : EnvM) (x y e0 : ℝ)
    (h : getSoilType (env.elevation x y) = none) :
    (mkPlant env x y e0).is_alive = false ∧ (mkPlant env x y e0).energy = 0 := by
  simp only [mkPlant]
  rw [if_pos h]
  exact ⟨rfl, rfl⟩

theorem disperseSeed_dirt (env : EnvM) (p : PlantState) (fx fy a1 a2 : ℝ)
    (hd : TERRAIN_DIRT_LEVEL ≤
      env.elevation (seedRollTarget env p fx fy a1 a2).1 (seedRollTarget env p fx fy a1 a2).2) :
    disperseSeed env [] p fx fy a1 a2 =
      some (mkPlant env (seedRollTarget env p fx fy a1 a2).1
        (seedRollTarget env p fx fy a1 a2).2 PLANT_SEED_PROVISIONING_ENERGY) := by
  have hw : ¬(env.elevation (seedRollTarget env p fx fy a1 a2).1
      (seedRollTarget env p fx fy a1 a2).2 < TERRAIN_WATER_LEVEL) := by
    apply not_lt.mpr
    apply le_trans _ hd
    simp only [TERRAIN_WATER_LEVEL, TERRAIN_DIRT_LEVEL]
    norm_num
  simp only [disperseSeed]
  rw [if_neg hw]
  simp

theorem disperseSeed_water (env : EnvM) (neighbors : List NeighborP) (p : PlantState)
    (fx fy a1 a2 : ℝ)
    (hw : env.elevation (seedRollTarget env p fx fy a1 a2).1
      (seedRollTarget env p fx fy a1 a2).2 < TERRAIN_WATER_LEVEL) :
    disperseSeed env neighbors p fx fy a1 a2 = none := by
  simp only [disperseSeed]
  rw [if_pos hw]

/-- The C10 scenario terrain: elevation grows linearly with `x`, so a fruit
always rolls toward smaller `x`; temperature and humidity constant. -/
noncomputable def env10 : EnvM :=
  ⟨fun x _ => 3 / 5 + x / 10000, fun _ _ => 1 / 2, fun _ _ => 1 / 2⟩

/-- The C10 parent plant: a mature plant of canopy radius 30 at
`(1000, 500)` holding 20000 J. -/
noncomputable def p10 : PlantState :=
  { x := 1000, y := 500, energy := 20000, age := 0, is_alive := true,
    life_stage := .mature, radius := 30, height := 60, root_radius := 30, core_radius := 10,
    radius_to_height_factor := PLANT_RADIUS_TO_HEIGHT_FACTOR,
    reproductive_energy_stored := 0, organ_count := 1,
    has_reached_self_sufficiency := true,
    shaded_canopy_area := 0, overlapped_root_area := 0,
    core_growth_since_crush_check := 0,
    elevation := 7 / 10, soil_type := some .dirt, temperature := 1 / 2, humidity := 1 / 2,
    soil_eff := 1, aging_eff := 1, hydraulic_eff := 1, environmental_eff := 1,
    photosynthesis_gain_per_second := 1, metabolism_cost_per_second := 0 }

theorem c10_roll_target : seedRollTarget env10 p10 1030 500 0 0 = (1000, 500) := by
  have hdrop : fruitDropPoint p10 1030 500 0 = (1030, 500) := by
    simp only [fruitDropPoint, p10]
    have h900 : ((1030:ℝ) - 1000) ^ 2 + ((500:ℝ) - 500) ^ 2 = 30 ^ 2 := by norm_num
    rw [h900, Real.sqrt_sq (by norm_num : (0:ℝ) ≤ 30)]
    rw [if_pos (by norm_num : (0:ℝ) < 30)]
    norm_num
  simp only [seedRollTarget, hdrop, env10]
  have hg : ((3:ℝ) / 5 + (1030 - 10) / 10000 - (3 / 5 + (1030 + 10) / 10000)) ^ 2 +
      (3 / 5 + 1030 / 10000 - (3 / 5 + 1030 / 10000)) ^ 2 = (1 / 500) ^ 2 := by norm_num
  rw [hg, Real.sqrt_sq (by norm_num : (0:ℝ) ≤ 1 / 500)]
  rw [if_pos (by norm_num : (1:ℝ) / 1000 < 1 / 500)]
  simp only [Prod.mk.injEq]
  constructor <;> norm_num [PLANT_SEED_ROLL_BASE_DISTANCE_CM, PLANT_SEED_ROLL_DISTANCE_FACTOR]

/-- Claim C10: a dropped fruit whose dispersal lands at or above the dirt
elevation level still produces a constructed seed that is already dead
(`is_alive = false`, zero energy); the parent pays the full provisioning
energy and the dead seed is handed to `add_newborn`, unlike a landing in
water, which yields `None` and costs nothing.  The third part runs the
scenario concretely: the parent at `(1000, 500)` on the linear terrain
`env10` pays 15000 J for a dead seed landed at elevation `0.7`. -/
theorem claim_C10_dead_seed_charged :
    (∀ (env : EnvM) (p : PlantState) (fx fy a1 a2 : ℝ),
      TERRAIN_DIRT_LEVEL ≤
          env.elevation (seedRollTarget env p fx fy a1 a2).1
            (seedRollTarget env p fx fy a1 a2).2 →
      PLANT_SEED_PROVISIONING_ENERGY ≤ p.energy →
      ∃ s, disperseSeed env [] p fx fy a1 a2 = some s ∧
        s.is_alive = false ∧ s.energy = 0 ∧
        dropFruit env [] p fx fy a1 a2 =
          ({ p with energy := p.energy - PLANT_SEED_PROVISIONING_ENERGY }, [s])) ∧
    (∀ (env : EnvM) (neighbors : List NeighborP) (p : PlantState) (fx fy a1 a2 : ℝ),
      env.elevation (seedRollTarget env p fx fy a1 a2).1
          (seedRollTarget env p fx fy a1 a2).2 < TERRAIN_WATER_LEVEL →
      disperseSeed env neighbors p fx fy a1 a2 = none ∧
        dropFruit env neighbors p fx fy a1 a2 = (p, [])) ∧
    ((dropFruit env10 [] p10 1030 500 0 0).1.energy = 5000 ∧
      ∀ s ∈ (dropFruit env10 [] p10 1030 500 0 0).2, s.is_alive = false ∧ s.energy = 0 ∧
        (dropFruit env10 [] p10 1030 500 0 0).2 = [s]) := by
  have hgen : ∀ (env : EnvM) (p : PlantState) (fx fy a1 a2 : ℝ),
      TERRAIN_DIRT_LEVEL ≤
          env.elevation (seedRollTarget env p fx fy a1 a2).1
            (seedRollTarget env p fx fy a1 a2).2 →
      PLANT_SEED_PROVISIONING_ENERGY ≤ p.energy →
      ∃ s, disperseSeed env [] p fx fy a1 a2 = some s ∧
        s.is_alive = false ∧ s.energy = 0 ∧
        dropFruit env [] p fx fy a1 a2 =
          ({ p with energy := p.energy - PLANT_SEED_PROVISIONING_ENERGY }, [s]) := by
    intro env p fx fy a1 a2 hd hpe
    refine ⟨mkPlant env (seedRollTarget env p fx fy a1 a2).1
      (seedRollTarget env p fx fy a1 a2).2 PLANT_SEED_PROVISIONING_ENERGY,
      disperseSeed_dirt env p fx fy a1 a2 hd,
      (mkPlant_dead _ _ _ _ (getSoilType_none_of_dirt hd)).1,
      (mkPlant_dead _ _ _ _ (getSoilType_none_of_dirt hd)).2, ?_⟩
    simp only [dropFruit]
    rw [if_pos hpe, disperseSeed_dirt env p fx fy a1 a2 hd]
  refine ⟨hgen, ?_, ?_⟩
  · intro env neighbors p fx fy a1 a2 hw
    refine ⟨disperseSeed_water env neighbors p fx fy a1 a2 hw, ?_⟩
    simp only [dropFruit]
    split_ifs with h
    · rw [disperseSeed_water env neighbors p fx fy a1 a2 hw]
    · rfl
  · have hd : TERRAIN_DIRT_LEVEL ≤
        env10.elevation (seedRollTarget env10 p10 1030 500 0 0).1
          (seedRollTarget env10 p10 1030 500 0 0).2 := by
      rw [c10_roll_target]
      simp only [env10, TERRAIN_DIRT_LEVEL]
      norm_num
    have hpe : PLANT_SEED_PROVISIONING_ENERGY ≤ p10.energy := by
      simp only [PLANT_SEED_PROVISIONING_ENERGY, p10]
      norm_num
    obtain ⟨s, hsome, hdead, hzero, hdrop⟩ := hgen env10 p10 1030 500 0 0 hd hpe
    rw [hdrop]
    refine ⟨by simp [p10, PLANT_SEED_PROVISIONING_ENERGY]; norm_num, ?_⟩
    intro t ht
    simp only [List.mem_singleton] at ht
    subst ht
    exact ⟨hdead, hzero, rfl⟩

/-! ## Vectorized derived-field passes (`src/plant_manager.py`)

The six bulk passes `World.update_in_bulk` runs before draining any event:
each recomputes one derived column over the whole live slice `[0, count)` of
the manager arrays in a single vectorized operation.  Arrays are embedded
as total functions from row index; entries at and above `count` are
untouched (NumPy writes only the `[:count]` slice).  The soil-type id
array and the id-to-efficiency table (`PLANT_SOIL_TYPE_TO_ID`,
`PLANT_SOIL_ID_TO_EFFICIENCY`, absent from `src/constants.py`) are
embedded as the soil kind itself with the `PLANT_SOIL_EFFICIENCY`
lookup. -/

/-- The manager columns, as total functions from row index. -/
structure PMArr where
  count : ℕ
  ages : ℕ → ℝ
  heights : ℕ → ℝ
  posx : ℕ → ℝ
  posy : ℕ → ℝ
  radii : ℕ → ℝ
  root_radii : ℕ → ℝ
  core_radii : ℕ → ℝ
  soil_type_ids : ℕ → Option SoilKind
  overlapped_root_areas : ℕ → ℝ
  shaded_canopy_areas : ℕ → ℝ
  aging_efficiencies : ℕ → ℝ
  hydraulic_efficiencies : ℕ → ℝ
  environmental_efficiencies : ℕ → ℝ
  soil_efficiencies : ℕ → ℝ
  metabolism_costs_per_second : ℕ → ℝ
  photosynthesis_gains_per_second : ℕ → ℝ
  canopy_areas : ℕ → ℝ

/-- Embedding of `PlantManager.update_aging_efficiencies`:
`exp(-(age / PLANT_SENESCENCE_TIMESCALE_SECONDS))` over the live slice. -/
noncomputable def update_aging_efficiencies (pm : PMArr) : PMArr :=
  { pm with aging_efficiencies := fun i =>
      if i < pm.count then Real.exp (-(pm.ages i / PLANT_SENESCENCE_TIMESCALE_SECONDS))
      else pm.aging_efficiencies i }

/-- Embedding of `PlantManager.update_hydraulic_efficiencies`:
`exp(-(height / PLANT_MAX_HYDRAULIC_HEIGHT_CM))` over the live slice. -/
noncomputable def update_hydraulic_efficiencies (pm : PMArr) : PMArr :=
  { pm with hydraulic_efficiencies := fun i =>
      if i < pm.count then Real.exp (-(pm.heights i / PLANT_MAX_HYDRAULIC_HEIGHT_CM))
      else pm.hydraulic_efficiencies i }

/-- Embedding of `PlantManager.update_environmental_efficiencies`: the
Gaussian temperature and humidity response at each plant position (all
plants share the placeholder `PlantGenes`). -/
noncomputable def update_environmental_efficiencies (env : EnvM) (pm : PMArr) : PMArr :=
  { pm with environmental_efficiencies := fun i =>
      if i < pm.count then
        Real.exp (-((|env.temperature (pm.posx i) (pm.posy i) - PLANT_OPTIMAL_TEMPERATURE| /
            PLANT_TEMPERATURE_TOLERANCE) ^ 2)) *
          Real.exp (-((|env.humidity (pm.posx i) (pm.posy i) - PLANT_OPTIMAL_HUMIDITY| /
            PLANT_HUMIDITY_TOLERANCE) ^ 2))
      else pm.environmental_efficiencies i }

/-- Embedding of `PlantManager.update_soil_efficiencies`: base soil
efficiency times the root-to-canopy ratio modifier times the root
competition factor (with the `1e-9` epsilon guard). -/
noncomputable def update_soil_efficiencies (pm : PMArr) : PMArr :=
  { pm with soil_efficiencies := fun i =>
      if i < pm.count then
        soilEffOf (pm.soil_type_ids i) *
          min 1 (pm.root_radii i / (pm.radii i + 1) * PLANT_ROOT_EFFICIENCY_FACTOR) *
          (max 0 (Real.pi * pm.root_radii i ^ 2 - pm.overlapped_root_areas i) /
            (Real.pi * pm.root_radii i ^ 2 + 1 / 1000000000))
      else pm.soil_efficiencies i }

/-- Modelled from the spec: `update_photosynthesis_gains` is called by
`World.update_in_bulk` (`src/world.py` line 377) and its output column is
read by `_calculate_energy_balance`, but its body is absent from
`src/plant_manager.py`.  Following spec section 4.4 step 1 and the
per-plant patch `_patch_all_rates_after_sprout`, the gain rate is the
effective canopy area (canopy minus shaded, clamped at zero) times
`PLANT_PHOTOSYNTHESIS_PER_AREA` times the environmental, soil, aging and
hydraulic efficiencies. -/
noncomputable def update_photosynthesis_gains (pm : PMArr) : PMArr :=
  { pm with photosynthesis_gains_per_second := fun i =>
      if i < pm.count then
        (max 0 (Real.pi * pm.radii i ^ 2 - pm.shaded_canopy_areas i)) *
          PLANT_PHOTOSYNTHESIS_PER_AREA * pm.environmental_efficiencies i *
          pm.soil_efficiencies i * pm.aging_efficiencies i * pm.hydraulic_efficiencies i
      else pm.photosynthesis_gains_per_second i }

/-- Embedding of `PlantManager.update_metabolism_costs`: total biomass area
times the base maintenance respiration times the Q10 temperature factor;
the pass also caches the canopy areas. -/
noncomputable def update_metabolism_costs (env : EnvM) (pm : PMArr) : PMArr :=
  { pm with
    canopy_areas := fun i =>
      if i < pm.count then Real.pi * pm.radii i ^ 2 else pm.canopy_areas i,
    metabolism_costs_per_second := fun i =>
      if i < pm.count then
        (Real.pi * pm.radii i ^ 2 + Real.pi * pm.root_radii i ^ 2 +
            Real.pi * pm.core_radii i ^ 2) *
          PLANT_BASE_MAINTENANCE_RESPIRATION_PER_AREA *
          PLANT_Q10_FACTOR ^
            ((env.temperature (pm.posx i) (pm.posy i) - PLANT_RESPIRATION_REFERENCE_TEMP) /
              PLANT_Q10_INTERVAL_DIVISOR)
      else pm.metabolism_costs_per_second i }

/-- The six vectorized passes in the call order of `update_in_bulk`
(`src/world.py` lines 373-378): aging, hydraulic, environmental, soil,
photosynthesis, metabolism. -/
noncomputable def applyBulkPasses (env : EnvM) (pm : PMArr) : PMArr :=
  update_metabolism_costs env
    (update_photosynthesis_gains
      (update_soil_efficiencies
        (update_environmental_efficiencies env
          (update_hydraulic_efficiencies
            (update_aging_efficiencies pm)))))

/-! ## Temporal event scheduler (`src/world.py`)

`schedule_plant_update` and `schedule_animal_update` quantize a future time
onto interval buckets of a dictionary; `update_in_bulk` first runs the six
vectorized passes, then drains all due competition rebuilds, restores the
clock to the window start, and drains the due organism buckets in minimum
key order, rescheduling every survivor one interval later; finally the
clock is set to the window end.  The dictionary is embedded as an
association list with unique keys in insertion order; the organism tick
(`creature.update`) is a parameter `upd` receiving the clock value the
scheduler set (organism ticks mutate only creature state, never the
clock).  The embedding emits a trace of events: `vpass i` for the i-th
vectorized pass, `comp t` for a competition rebuild with the clock set to
`t` (its grid work is the populate and resolve passes of the grid module),
`restore t` and `final t` for the two direct clock assignments, `key t`
when the clock is set to a drained bucket key, and `tick t oid` when an
organism tick runs reading clock `t`.  End-of-window housekeeping feeds
the store module (`applyStoreOps`) and is not re-modelled here. -/

/-- Organism kind: the `isinstance(creature, Plant)` and `Animal`
dispatch. -/
inductive OrgKind where
  | plant
  | animal
deriving DecidableEq

/-- An organism reference as the scheduler sees one: identity, class and
liveness. -/
structure Org where
  oid : ℕ
  kind : OrgKind
  alive : Bool
deriving DecidableEq

/-- A schedule dictionary: quantized time key to the bucket of organisms
due at that key, in insertion order. -/
abbrev Sched := List (ℚ × List Org)

/-- The key list of a schedule (dictionary key view). -/
def schedKeys (s : Sched) : List ℚ := s.map Prod.fst

/-- Dictionary insert used by both schedule methods: append to the bucket
at `k`, creating the bucket if absent. -/
def schedInsert (s : Sched) (k : ℚ) (o : Org) : Sched :=
  match s with
  | [] => [(k, [o])]
  | (k1, l) :: rest => if k1 = k then (k1, l ++ [o]) :: rest else (k1, l) :: schedInsert rest k o

/-- Python `min(schedule.keys())` over a possibly empty dictionary. -/
def keysMin : List ℚ → Option ℚ
  | [] => none
  | k :: rest =>
    match keysMin rest with
    | none => some k
    | some m => some (min k m)

/-- Dictionary `pop(k)`: the bucket at `k` (empty when absent) and the
dictionary without it. -/
def schedPop (s : Sched) (k : ℚ) : List Org × Sched :=
  match s with
  | [] => ([], [])
  | (k1, l) :: rest =>
    if k1 = k then (l, rest)
    else
      let pr := schedPop rest k
      (pr.1, (k1, l) :: pr.2)

/-- The quantized bucket key: `int(t / interval) * interval`. -/
def quantKey (t I : ℚ) : ℚ := (pyInt (t / I) : ℚ) * I

/-- The scheduler-facing world state: the simulation clock
(`time_manager.total_sim_seconds`), the two schedule dictionaries and the
next competition rebuild time. -/
structure SchedWorld where
  clock : ℚ
  plant_update_schedule : Sched
  animal_update_schedule : Sched
  next_competition_update_time : ℚ

/-- Embedding of `World.schedule_plant_update`: insert the plant at the
bucket key `int((now + delay) / PLANT_LOGIC_UPDATE_INTERVAL_SECONDS) *
PLANT_LOGIC_UPDATE_INTERVAL_SECONDS`. -/
def schedule_plant_update (w : SchedWorld) (o : Org) (delay_seconds : ℚ) : SchedWorld :=
  { w with plant_update_schedule :=
      (schedInsert w.plant_update_schedule
        (quantKey (w.clock + delay_seconds) PLANT_LOGIC_UPDATE_INTERVAL_SECONDS) o) }

/-- Embedding of `World.schedule_animal_update`. -/
def schedule_animal_update (w : SchedWorld) (o : Org) (delay_seconds : ℚ) : SchedWorld :=
  { w with animal_update_schedule :=
      (schedInsert w.animal_update_schedule
        (quantKey (w.clock + delay_seconds) ANIMAL_UPDATE_TICK_SECONDS) o) }

/-- Trace events of one `update_in_bulk` call (see the module comment). -/
inductive Ev where
  | vpass (i : ℕ)
  | comp (t : ℚ)
  | restore (t : ℚ)
  | key (t : ℚ)
  | tick (t : ℚ) (oid : ℕ)
  | final (t : ℚ)
deriving DecidableEq

/-- The competition-rebuild loop of `update_in_bulk`
(`while self.next_competition_update_time < end_time`): sets the clock to
each rebuild time in turn and advances the next rebuild time by one
competition interval.  `fuel` bounds the iteration count; every theorem
assumes it is at least the number of due rebuilds. -/
def compLoop : ℕ → ℚ → ℚ → List Ev × ℚ
  | 0, c, _ => ([], c)
  | fuel + 1, c, end_time =>
    if c < end_time then
      let r := compLoop fuel (c + PLANT_COMPETITION_UPDATE_INTERVAL_SECONDS) end_time
      (Ev.comp c :: r.1, r.2)
    else ([], c)

/-- The per-bucket creature loop of `update_in_bulk`: skip dead organisms,
tick each live one at clock `t` via `upd`, and reschedule the survivors one
fixed interval later (plants and animals into their own dictionaries). -/
def processCreatures (upd : ℚ → Org → Org) (t : ℚ) :
    List Org → Sched → Sched → Sched × Sched × List Ev
  | [], ps, as => (ps, as, [])
  | o :: rest, ps, as =>
    if o.alive then
      let o2 := upd t o
      match o.kind with
      | .plant =>
        let ps2 :=
          if o2.alive then
            schedInsert ps
              (quantKey (t + PLANT_LOGIC_UPDATE_INTERVAL_SECONDS)
                PLANT_LOGIC_UPDATE_INTERVAL_SECONDS) o2
          else ps
        let r := processCreatures upd t rest ps2 as
        (r.1, r.2.1, Ev.tick t o.oid :: r.2.2)
      | .animal =>
        let as2 :=
          if o2.alive then
            schedInsert as (quantKey (t + ANIMAL_UPDATE_TICK_SECONDS) ANIMAL_UPDATE_TICK_SECONDS) o2
          else as
        let r := processCreatures upd t rest ps as2
        (r.1, r.2.1, Ev.tick t o.oid :: r.2.2)
    else processCreatures upd t rest ps as

/-- The combined minimum `min(next_plant_time, next_animal_time)`; an
absent value stands for the infinite sentinel the source uses for an empty
dictionary. -/
def nextEvTime (ps as : Sched) : Option ℚ :=
  match keysMin (schedKeys ps), keysMin (schedKeys as) with
  | none, none => none
  | some a, none => some a
  | none, some b => some b
  | some a, some b => some (min a b)

/-- The event loop of `update_in_bulk` (`while True`): find the minimum key
over both dictionaries, stop when it is at or past the window end, else set
the clock to that exact key, pop both buckets at it, and process the
creatures.  `fuel` bounds the iterations; every theorem assumes it is at
least `worldMeasure`, the number of remaining due ticks. -/
def runEvents (upd : ℚ → Org → Org) (end_time : ℚ) :
    ℕ → Sched → Sched → Sched × Sched × List Ev
  | 0, ps, as => (ps, as, [])
  | fuel + 1, ps, as =>
    match nextEvTime ps as with
    | none => (ps, as, [])
    | some t =>
      if t < end_time then
        let pp := schedPop ps t
        let ap := schedPop as t
        let r := processCreatures upd t (pp.1 ++ ap.1) pp.2 ap.2
        let r2 := runEvents upd end_time fuel r.1 r.2.1
        (r2.1, r2.2.1, (Ev.key t :: r.2.2) ++ r2.2.2)
      else (ps, as, [])

/-- The pass-call prefix of every `update_in_bulk` trace. -/
def passTrace : List Ev :=
  [Ev.vpass 0, Ev.vpass 1, Ev.vpass 2, Ev.vpass 3, Ev.vpass 4, Ev.vpass 5]

/-- Embedding of `World.update_in_bulk`: the six vectorized passes, the
competition batch, the clock restore to the window start, the event loop,
and the final clock assignment to the window end.  Returns the new
scheduler state, the new manager arrays and the trace. -/
noncomputable def update_in_bulk (env : EnvM) (upd : ℚ → Org → Org) (w : SchedWorld)
    (pm : PMArr) (large_delta_time : ℚ) (cfuel efuel : ℕ) :
    SchedWorld × PMArr × List Ev :=
  let pm2 := applyBulkPasses env pm
  let start_time := w.clock
  let end_time := start_time + large_delta_time
  let cl := compLoop cfuel w.next_competition_update_time end_time
  let re := runEvents upd end_time efuel w.plant_update_schedule w.animal_update_schedule
  ({ clock := end_time, plant_update_schedule := re.1, animal_update_schedule := re.2.1,
     next_competition_update_time := cl.2 },
   pm2,
   passTrace ++ cl.1 ++ [Ev.restore start_time] ++ re.2.2 ++ [Ev.final end_time])

/-- The successive values assigned to the simulation clock during one
`update_in_bulk` call, in order (`tick` events read the clock, `vpass`
events do not touch it). -/
def clockTrace (evs : List Ev) : List ℚ :=
  evs.filterMap fun e =>
    match e with
    | .comp t => some t
    | .restore t => some t
    | .key t => some t
    | .final t => some t
    | _ => none

/-- The clock values read by the ticks of organism `i` in a trace, in
order. -/
def tickTimes (evs : List Ev) (i : ℕ) : List ℚ :=
  evs.filterMap fun e =>
    match e with
    | .tick t j => if j = i then some t else none
    | _ => none

/-- Number of interval boundaries an organism scheduled at key `k` crosses
before `end_time`: the number of times the loop will tick it in this
window. -/
def ticksLeft (end_time I k : ℚ) : ℕ := if k < end_time then ⌈(end_time - k) / I⌉₊ else 0

/-- The total number of due ticks a schedule still owes below
`end_time`. -/
def schedMeasure (end_time I : ℚ) (s : Sched) : ℕ :=
  (s.map fun e => e.2.length * ticksLeft end_time I e.1).sum

/-- Fuel bound for `runEvents`: the due ticks of both schedules. -/
def worldMeasure (end_time : ℚ) (ps as : Sched) : ℕ :=
  schedMeasure end_time PLANT_LOGIC_UPDATE_INTERVAL_SECONDS ps +
    schedMeasure end_time ANIMAL_UPDATE_TICK_SECONDS as

/-- Well-formedness of a schedule dictionary with interval `I`, as every
state reachable through the schedule methods satisfies: every key is an
integer multiple of `I`, buckets are non-empty, and keys are distinct. -/
def wfSched (I : ℚ) (s : Sched) : Prop :=
  (∀ e ∈ s, (∃ m : ℤ, e.1 = (m : ℚ) * I) ∧ e.2 ≠ []) ∧ (schedKeys s).Nodup

/-- How many organisms with id `i` a schedule holds (over all buckets). -/
def occCount (s : Sched) (i : ℕ) : ℕ :=
  (s.map fun e => e.2.countP fun o => o.oid == i).sum

/-- Organism `o` sits in the bucket at key `k`. -/
def orgAt (s : Sched) (k : ℚ) (o : Org) : Prop := ∃ e ∈ s, e.1 = k ∧ o ∈ e.2

/-! ## Scheduler dictionary lemmas -/

theorem IP_pos : (0 : ℚ) < PLANT_LOGIC_UPDATE_INTERVAL_SECONDS := by
  norm_num [PLANT_LOGIC_UPDATE_INTERVAL_SECONDS]

theorem IA_pos : (0 : ℚ) < ANIMAL_UPDATE_TICK_SECONDS := by
  norm_num [ANIMAL_UPDATE_TICK_SECONDS]

theorem ICOMP_pos : (0 : ℚ) < PLANT_COMPETITION_UPDATE_INTERVAL_SECONDS := by
  norm_num [PLANT_COMPETITION_UPDATE_INTERVAL_SECONDS]

theorem pyInt_ge_floor (q : ℚ) : Int.floor q ≤ pyInt q := by
  unfold pyInt
  split_ifs with h
  · rw [Int.floor_neg, neg_neg]
    exact Int.floor_le_ceil q
  · exact le_refl _

theorem quantKey_gt (t I : ℚ) (hI : 0 < I) : t < quantKey (t + I) I := by
  unfold quantKey
  have h1 : ((t + I) / I - 1) * I < ((Int.floor ((t + I) / I) : ℚ)) * I :=
    mul_lt_mul_of_pos_right (Int.sub_one_lt_floor _) hI
  have h2 : ((Int.floor ((t + I) / I) : ℚ)) * I ≤ ((pyInt ((t + I) / I) : ℚ)) * I :=
    mul_le_mul_of_nonneg_right (by exact_mod_cast pyInt_ge_floor ((t + I) / I)) (le_of_lt hI)
  have h3 : ((t + I) / I - 1) * I = t := by field_simp
  linarith

theorem quantKey_mul (m : ℤ) (I : ℚ) (hI : I ≠ 0) :
    quantKey ((m : ℚ) * I) I = (m : ℚ) * I := by
  unfold quantKey
  rw [mul_div_cancel_right₀ _ hI, pyInt_intCast]

theorem quantKey_form (x I : ℚ) : ∃ m : ℤ, quantKey x I = (m : ℚ) * I :=
  ⟨pyInt (x / I), rfl⟩

theorem natCeil_succ {x : ℚ} (hx : 0 < x) : ⌈x⌉₊ = ⌈x - 1⌉₊ + 1 := by
  rcases le_or_lt x 1 with h | h
  · rw [Nat.ceil_eq_zero.mpr (by linarith : x - 1 ≤ 0)]
    have h1 : ⌈x⌉₊ ≤ 1 := by
      rw [show (1 : ℕ) = ⌈(1 : ℚ)⌉₊ by simp]
      exact Nat.ceil_le_ceil h
    have h2 : 0 < ⌈x⌉₊ := Nat.ceil_pos.mpr hx
    omega
  · have h1 : ⌈x⌉₊ ≤ ⌈x - 1⌉₊ + 1 := by
      rw [Nat.ceil_le]
      push_cast
      have := Nat.le_ceil (x - 1)
      linarith
    have h2 : ⌈x - 1⌉₊ < ⌈x⌉₊ := by
      rw [Nat.lt_ceil]
      have := Nat.ceil_lt_add_one (by linarith : (0 : ℚ) ≤ x - 1)
      linarith
    omega

theorem ticksLeft_step (E I k : ℚ) (hI : 0 < I) (hk : k < E) :
    ticksLeft E I k = ticksLeft E I (k + I) + 1 := by
  unfold ticksLeft
  rw [if_pos hk]
  have hx : 0 < (E - k) / I := div_pos (by linarith) hI
  have hshift : (E - k) / I - 1 = (E - (k + I)) / I := by field_simp; ring
  by_cases h2 : k + I < E
  · rw [if_pos h2, natCeil_succ hx, hshift]
  · rw [if_neg h2, natCeil_succ hx, hshift, Nat.ceil_eq_zero.mpr]
    exact div_nonpos_of_nonpos_of_nonneg (by linarith) (le_of_lt hI)

theorem schedKeys_eq_nil {s : Sched} (h : schedKeys s = []) : s = [] := by
  cases s with
  | nil => rfl
  | cons e r => simp [schedKeys] at h

theorem keysMin_eq_none {l : List ℚ} (h : keysMin l = none) : l = [] := by
  cases l with
  | nil => rfl
  | cons a rest =>
    exfalso
    unfold keysMin at h
    cases hrest : keysMin rest <;> rw [hrest] at h <;> simp at h

theorem keysMin_le {l : List ℚ} {m : ℚ} (h : keysMin l = some m) :
    ∀ x ∈ l, m ≤ x := by
  induction l generalizing m with
  | nil => simp [keysMin] at h
  | cons a rest ih =>
    intro x hx
    unfold keysMin at h
    cases hrest : keysMin rest with
    | none =>
      rw [hrest] at h
      simp only [Option.some.injEq] at h
      subst h
      rw [keysMin_eq_none hrest] at hx
      rcases List.mem_cons.mp hx with rfl | hx2
      · exact le_refl _
      · exact absurd hx2 (List.not_mem_nil x)
    | some m0 =>
      rw [hrest] at h
      simp only [Option.some.injEq] at h
      subst h
      rcases List.mem_cons.mp hx with rfl | hx2
      · exact min_le_left _ _
      · exact le_trans (min_le_right a m0) (ih hrest x hx2)

theorem keysMin_mem {l : List ℚ} {m : ℚ} (h : keysMin l = some m) : m ∈ l := by
  induction l generalizing m with
  | nil => simp [keysMin] at h
  | cons a rest ih =>
    unfold keysMin at h
    cases hrest : keysMin rest with
    | none =>
      rw [hrest] at h
      simp only [Option.some.injEq] at h
      subst h
      exact List.mem_cons_self a rest
    | some m0 =>
      rw [hrest] at h
      simp only [Option.some.injEq] at h
      subst h
      rcases le_total a m0 with hle | hle
      · rw [min_eq_left hle]
        exact List.mem_cons_self a rest
      · rw [min_eq_right hle]
        exact List.mem_cons_of_mem a (ih hrest)

theorem nextEvTime_none {ps as : Sched} (h : nextEvTime ps as = none) :
    ps = [] ∧ as = [] := by
  unfold nextEvTime at h
  cases hp : keysMin (schedKeys ps) <;> cases ha : keysMin (schedKeys as) <;>
    rw [hp, ha] at h <;> simp at h
  exact ⟨schedKeys_eq_nil (keysMin_eq_none hp), schedKeys_eq_nil (keysMin_eq_none ha)⟩

theorem nextEvTime_le_ps {ps as : Sched} {t : ℚ} (h : nextEvTime ps as = some t) :
    ∀ x ∈ schedKeys ps, t ≤ x := by
  intro x hx
  unfold nextEvTime at h
  cases hp : keysMin (schedKeys ps) with
  | none =>
    rw [keysMin_eq_none hp] at hx
    exact absurd hx (List.not_mem_nil x)
  | some a =>
    cases ha : keysMin (schedKeys as) <;> rw [hp, ha] at h <;>
      simp only [Option.some.injEq] at h <;> subst h
    · exact keysMin_le hp x hx
    · exact le_trans (min_le_left _ _) (keysMin_le hp x hx)

theorem nextEvTime_le_as {ps as : Sched} {t : ℚ} (h : nextEvTime ps as = some t) :
    ∀ x ∈ schedKeys as, t ≤ x := by
  intro x hx
  unfold nextEvTime at h
  cases ha : keysMin (schedKeys as) with
  | none =>
    rw [keysMin_eq_none ha] at hx
    exact absurd hx (List.not_mem_nil x)
  | some b =>
    cases hp : keysMin (schedKeys ps) <;> rw [hp, ha] at h <;>
      simp only [Option.some.injEq] at h <;> subst h
    · exact keysMin_le ha x hx
    · exact le_trans (min_le_right _ _) (keysMin_le ha x hx)

theorem nextEvTime_mem {ps as : Sched} {t : ℚ} (h : nextEvTime ps as = some t) :
    t ∈ schedKeys ps ∨ t ∈ schedKeys as := by
  unfold nextEvTime at h
  cases hp : keysMin (schedKeys ps) with
  | none =>
    cases ha : keysMin (schedKeys as) with
    | none => rw [hp, ha] at h; simp at h
    | some b =>
      rw [hp, ha] at h
      simp only [Option.some.injEq] at h
      subst h
      exact Or.inr (keysMin_mem ha)
  | some a =>
    cases ha : keysMin (schedKeys as) with
    | none =>
      rw [hp, ha] at h
      simp only [Option.some.injEq] at h
      subst h
      exact Or.inl (keysMin_mem hp)
    | some b =>
      rw [hp, ha] at h
      simp only [Option.some.injEq] at h
      subst h
      rcases le_total a b with hle | hle
      · rw [min_eq_left hle]
        exact Or.inl (keysMin_mem hp)
      · rw [min_eq_right hle]
        exact Or.inr (keysMin_mem ha)

theorem schedInsert_eq_of_head {k1 : ℚ} {l : List Org} {rest : Sched} {k : ℚ} {o : Org}
    (h : k1 = k) : schedInsert ((k1, l) :: rest) k o = (k1, l ++ [o]) :: rest := by
  simp [schedInsert, h]

theorem schedInsert_eq_of_ne {k1 : ℚ} {l : List Org} {rest : Sched} {k : ℚ} {o : Org}
    (h : ¬ k1 = k) : schedInsert ((k1, l) :: rest) k o = (k1, l) :: schedInsert rest k o := by
  simp [schedInsert, h]

theorem mem_schedKeys_insert {s : Sched} {k k2 : ℚ} {o : Org} :
    k2 ∈ schedKeys (schedInsert s k o) ↔ k2 ∈ schedKeys s ∨ k2 = k := by
  induction s with
  | nil => simp [schedInsert, schedKeys]
  | cons e rest ih =>
    obtain ⟨k1, l⟩ := e
    by_cases hk : k1 = k
    · rw [schedInsert_eq_of_head hk]
      subst hk
      simp only [schedKeys, List.map_cons, List.mem_cons]
      tauto
    · rw [schedInsert_eq_of_ne hk]
      simp only [schedKeys, List.map_cons, List.mem_cons] at ih ⊢
      rw [ih]
      tauto

theorem nodup_schedKeys_insert {s : Sched} {k : ℚ} {o : Org}
    (h : (schedKeys s).Nodup) : (schedKeys (schedInsert s k o)).Nodup := by
  induction s with
  | nil => simp [schedInsert, schedKeys]
  | cons e rest ih =>
    obtain ⟨k1, l⟩ := e
    simp only [schedKeys, List.map_cons, List.nodup_cons] at h
    by_cases hk : k1 = k
    · rw [schedInsert_eq_of_head hk]
      simp only [schedKeys, List.map_cons, List.nodup_cons]
      exact ⟨h.1, h.2⟩
    · rw [schedInsert_eq_of_ne hk]
      simp only [schedKeys, List.map_cons, List.nodup_cons]
      refine ⟨fun hmem => ?_, ih h.2⟩
      rcases mem_schedKeys_insert.mp hmem with h2 | h2
      · exact h.1 h2
      · exact hk h2

theorem mem_schedInsert {s : Sched} {k : ℚ} {o : Org} {e : ℚ × List Org} :
    e ∈ schedInsert s k o →
      e ∈ s ∨ (∃ l, (e.1, l) ∈ s ∧ e = (e.1, l ++ [o])) ∨ e = (k, [o]) := by
  induction s with
  | nil =>
    intro he
    simp [schedInsert] at he
    exact Or.inr (Or.inr he)
  | cons e0 rest ih =>
    obtain ⟨k1, l⟩ := e0
    intro he
    by_cases hk1 : k1 = k
    · rw [schedInsert_eq_of_head hk1] at he
      rcases List.mem_cons.mp he with rfl | he2
      · exact Or.inr (Or.inl ⟨l, List.mem_cons_self _ _, rfl⟩)
      · exact Or.inl (List.mem_cons_of_mem _ he2)
    · rw [schedInsert_eq_of_ne hk1] at he
      rcases List.mem_cons.mp he with rfl | he2
      · exact Or.inl (List.mem_cons_self _ _)
      · rcases ih he2 with h | h | h
        · exact Or.inl (List.mem_cons_of_mem _ h)
        · obtain ⟨l2, hl2, heq⟩ := h
          exact Or.inr (Or.inl ⟨l2, List.mem_cons_of_mem _ hl2, heq⟩)
        · exact Or.inr (Or.inr h)

theorem wfSched_insert {I : ℚ} {s : Sched} {k : ℚ} {o : Org}
    (h : wfSched I s) (hk : ∃ m : ℤ, k = (m : ℚ) * I) :
    wfSched I (schedInsert s k o) := by
  refine ⟨fun e he => ?_, nodup_schedKeys_insert h.2⟩
  rcases mem_schedInsert he with h2 | h2 | h2
  · exact h.1 e h2
  · obtain ⟨l2, hl2, heq⟩ := h2
    refine ⟨?_, ?_⟩
    · have := (h.1 _ hl2).1
      simpa using this
    · rw [heq]
      simp
  · rw [h2]
    exact ⟨hk, by simp⟩

theorem occCount_cons (e : ℚ × List Org) (rest : Sched) (i : ℕ) :
    occCount (e :: rest) i = e.2.countP (fun o => o.oid == i) + occCount rest i := by
  simp [occCount]

theorem occCount_pair (k : ℚ) (l : List Org) (rest : Sched) (i : ℕ) :
    occCount ((k, l) :: rest) i = l.countP (fun o => o.oid == i) + occCount rest i := by
  simp [occCount]

theorem occCount_insert (s : Sched) (k : ℚ) (o : Org) (i : ℕ) :
    occCount (schedInsert s k o) i = occCount s i + (if o.oid = i then 1 else 0) := by
  induction s with
  | nil =>
    simp only [schedInsert, occCount, List.map_cons, List.map_nil, List.sum_cons,
      List.sum_nil, List.countP_cons, List.countP_nil]
    by_cases ho : o.oid = i <;> simp [ho]
  | cons e0 rest ih =>
    obtain ⟨k1, l⟩ := e0
    by_cases hk1 : k1 = k
    · rw [schedInsert_eq_of_head hk1, occCount_pair, occCount_pair, List.countP_append]
      have : List.countP (fun o => o.oid == i) [o] = if o.oid = i then 1 else 0 := by
        by_cases ho : o.oid = i <;> simp [ho]
      rw [this]
      omega
    · rw [schedInsert_eq_of_ne hk1, occCount_pair, occCount_pair, ih]
      omega

theorem orgAt_insert_self (s : Sched) (k : ℚ) (o : Org) : orgAt (schedInsert s k o) k o := by
  induction s with
  | nil => exact ⟨(k, [o]), by simp [schedInsert], rfl, by simp⟩
  | cons e0 rest ih =>
    obtain ⟨k1, l⟩ := e0
    by_cases hk1 : k1 = k
    · refine ⟨(k1, l ++ [o]), ?_, hk1, by simp⟩
      rw [schedInsert_eq_of_head hk1]
      exact List.mem_cons_self _ _
    · obtain ⟨e, he, hk0, ho⟩ := ih
      refine ⟨e, ?_, hk0, ho⟩
      rw [schedInsert_eq_of_ne hk1]
      exact List.mem_cons_of_mem _ he

theorem orgAt_insert_mono {s : Sched} {k0 : ℚ} {o0 : Org} (k : ℚ) (o : Org) :
    orgAt s k0 o0 → orgAt (schedInsert s k o) k0 o0 := by
  induction s with
  | nil =>
    intro h
    obtain ⟨e, he, _⟩ := h
    exact absurd he (List.not_mem_nil e)
  | cons e0 rest ih =>
    obtain ⟨k1, l⟩ := e0
    intro h
    obtain ⟨e, he, hk, ho⟩ := h
    by_cases hk1 : k1 = k
    · rw [schedInsert_eq_of_head hk1]
      rcases List.mem_cons.mp he with rfl | he2
      · exact ⟨(k1, l ++ [o]), List.mem_cons_self _ _, hk, List.mem_append_left _ ho⟩
      · exact ⟨e, List.mem_cons_of_mem _ he2, hk, ho⟩
    · rw [schedInsert_eq_of_ne hk1]
      rcases List.mem_cons.mp he with rfl | he2
      · exact ⟨(k1, l), List.mem_cons_self _ _, hk, ho⟩
      · obtain ⟨e2, he2b, hk2, ho2⟩ := ih ⟨e, he2, hk, ho⟩
        exact ⟨e2, List.mem_cons_of_mem _ he2b, hk2, ho2⟩

theorem schedPop_eq_of_head {k1 : ℚ} {l : List Org} {rest : Sched} {k : ℚ}
    (h : k1 = k) : schedPop ((k1, l) :: rest) k = (l, rest) := by
  simp [schedPop, h]

theorem schedPop_eq_of_ne {k1 : ℚ} {l : List Org} {rest : Sched} {k : ℚ}
    (h : ¬ k1 = k) :
    schedPop ((k1, l) :: rest) k = ((schedPop rest k).1, (k1, l) :: (schedPop rest k).2) := by
  simp [schedPop, h]

theorem schedKeys_pop (s : Sched) (k : ℚ) :
    schedKeys (schedPop s k).2 = (schedKeys s).erase k := by
  induction s with
  | nil => rfl
  | cons e0 rest ih =>
    obtain ⟨k1, l⟩ := e0
    by_cases hk1 : k1 = k
    · rw [schedPop_eq_of_head hk1]
      subst hk1
      simp [schedKeys, List.erase_cons]
    · rw [schedPop_eq_of_ne hk1]
      simp only [schedKeys, List.map_cons] at ih ⊢
      rw [ih, List.erase_cons]
      simp [hk1]

theorem mem_pop_snd {s : Sched} {k : ℚ} {e : ℚ × List Org} :
    e ∈ (schedPop s k).2 → e ∈ s := by
  induction s with
  | nil => intro h; exact absurd h (List.not_mem_nil e)
  | cons e0 rest ih =>
    obtain ⟨k1, l⟩ := e0
    intro h
    by_cases hk1 : k1 = k
    · rw [schedPop_eq_of_head hk1] at h
      exact List.mem_cons_of_mem _ h
    · rw [schedPop_eq_of_ne hk1] at h
      rcases List.mem_cons.mp h with rfl | h2
      · exact List.mem_cons_self _ _
      · exact List.mem_cons_of_mem _ (ih h2)

theorem orgAt_pop {s : Sched} {k0 : ℚ} {o0 : Org} (k : ℚ) (hne : k0 ≠ k) :
    orgAt s k0 o0 → orgAt (schedPop s k).2 k0 o0 := by
  induction s with
  | nil =>
    intro h
    obtain ⟨e, he, _⟩ := h
    exact absurd he (List.not_mem_nil e)
  | cons e0 rest ih =>
    obtain ⟨k1, l⟩ := e0
    intro h
    obtain ⟨e, he, hk, ho⟩ := h
    by_cases hk1 : k1 = k
    · rw [schedPop_eq_of_head hk1]
      rcases List.mem_cons.mp he with rfl | he2
      · exact absurd (hk ▸ hk1) hne
      · exact ⟨e, he2, hk, ho⟩
    · rw [schedPop_eq_of_ne hk1]
      rcases List.mem_cons.mp he with rfl | he2
      · exact ⟨(k1, l), List.mem_cons_self _ _, hk, ho⟩
      · obtain ⟨e2, he2b, hk2, ho2⟩ := ih ⟨e, he2, hk, ho⟩
        exact ⟨e2, List.mem_cons_of_mem _ he2b, hk2, ho2⟩

theorem occCount_pop (s : Sched) (k : ℚ) (i : ℕ) :
    occCount s i =
      (schedPop s k).1.countP (fun o => o.oid == i) + occCount (schedPop s k).2 i := by
  induction s with
  | nil => rfl
  | cons e0 rest ih =>
    obtain ⟨k1, l⟩ := e0
    by_cases hk1 : k1 = k
    · rw [schedPop_eq_of_head hk1]
      dsimp only
      rw [occCount_pair]
    · rw [schedPop_eq_of_ne hk1]
      dsimp only
      rw [occCount_pair, occCount_pair]
      omega

theorem mem_pop_fst {s : Sched} {k : ℚ} {o : Org} (hnd : (schedKeys s).Nodup) :
    orgAt s k o → o ∈ (schedPop s k).1 := by
  induction s with
  | nil =>
    intro h
    obtain ⟨e, he, _⟩ := h
    exact absurd he (List.not_mem_nil e)
  | cons e0 rest ih =>
    obtain ⟨k1, l⟩ := e0
    intro h
    obtain ⟨e, he, hk, ho⟩ := h
    simp only [schedKeys, List.map_cons, List.nodup_cons] at hnd
    by_cases hk1 : k1 = k
    · rw [schedPop_eq_of_head hk1]
      rcases List.mem_cons.mp he with rfl | he2
      · exact ho
      · exfalso
        apply hnd.1
        rw [show k1 = e.1 from hk1.trans hk.symm]
        exact List.mem_map_of_mem Prod.fst he2
    · rw [schedPop_eq_of_ne hk1]
      rcases List.mem_cons.mp he with rfl | he2
      · exact absurd hk hk1
      · exact ih hnd.2 ⟨e, he2, hk, ho⟩

theorem wfSched_pop {I : ℚ} {s : Sched} (k : ℚ) (h : wfSched I s) :
    wfSched I (schedPop s k).2 := by
  refine ⟨fun e he => h.1 e (mem_pop_snd he), ?_⟩
  rw [schedKeys_pop]
  exact h.2.erase k

theorem one_le_occCount {s : Sched} {k : ℚ} {o : Org} {i : ℕ}
    (h : orgAt s k o) (hi : o.oid = i) : 1 ≤ occCount s i := by
  obtain ⟨e, he, _, ho⟩ := h
  have h1 : 0 < e.2.countP (fun o => o.oid == i) :=
    List.countP_pos.mpr ⟨o, ho, by simp [hi]⟩
  have h2 : e.2.countP (fun o => o.oid == i) ≤ occCount s i := by
    unfold occCount
    exact List.single_le_sum (fun x _ => Nat.zero_le x) _
      (List.mem_map_of_mem (fun e => e.2.countP fun o => o.oid == i) he)
  omega

theorem mem_schedKeys_of_orgAt {s : Sched} {k : ℚ} {o : Org} (h : orgAt s k o) :
    k ∈ schedKeys s := by
  obtain ⟨e, he, hk, _⟩ := h
  have := List.mem_map_of_mem Prod.fst he
  rwa [hk] at this

/-! ## Creature-loop lemmas -/

theorem processCreatures_nil (upd : ℚ → Org → Org) (t : ℚ) (ps as : Sched) :
    processCreatures upd t [] ps as = (ps, as, []) := rfl

theorem processCreatures_cons_dead {o : Org} (upd : ℚ → Org → Org) (t : ℚ)
    (rest : List Org) (ps as : Sched) (h : o.alive = false) :
    processCreatures upd t (o :: rest) ps as = processCreatures upd t rest ps as := by
  simp [processCreatures, h]

theorem processCreatures_cons_plant {o : Org} (upd : ℚ → Org → Org) (t : ℚ)
    (rest : List Org) (ps as : Sched) (ha : o.alive = true) (hk : o.kind = OrgKind.plant) :
    processCreatures upd t (o :: rest) ps as =
      ((processCreatures upd t rest
          (if (upd t o).alive = true then
            schedInsert ps
              (quantKey (t + PLANT_LOGIC_UPDATE_INTERVAL_SECONDS)
                PLANT_LOGIC_UPDATE_INTERVAL_SECONDS) (upd t o)
          else ps) as).1,
       (processCreatures upd t rest
          (if (upd t o).alive = true then
            schedInsert ps
              (quantKey (t + PLANT_LOGIC_UPDATE_INTERVAL_SECONDS)
                PLANT_LOGIC_UPDATE_INTERVAL_SECONDS) (upd t o)
          else ps) as).2.1,
       Ev.tick t o.oid ::
         (processCreatures upd t rest
            (if (upd t o).alive = true then
              schedInsert ps
                (quantKey (t + PLANT_LOGIC_UPDATE_INTERVAL_SECONDS)
                  PLANT_LOGIC_UPDATE_INTERVAL_SECONDS) (upd t o)
            else ps) as).2.2) := by
  simp [processCreatures, ha, hk]

theorem processCreatures_cons_animal {o : Org} (upd : ℚ → Org → Org) (t : ℚ)
    (rest : List Org) (ps as : Sched) (ha : o.alive = true) (hk : o.kind = OrgKind.animal) :
    processCreatures upd t (o :: rest) ps as =
      ((processCreatures upd t rest ps
          (if (upd t o).alive = true then
            schedInsert as
              (quantKey (t + ANIMAL_UPDATE_TICK_SECONDS) ANIMAL_UPDATE_TICK_SECONDS)
              (upd t o)
          else as)).1,
       (processCreatures upd t rest ps
          (if (upd t o).alive = true then
            schedInsert as
              (quantKey (t + ANIMAL_UPDATE_TICK_SECONDS) ANIMAL_UPDATE_TICK_SECONDS)
              (upd t o)
          else as)).2.1,
       Ev.tick t o.oid ::
         (processCreatures upd t rest ps
            (if (upd t o).alive = true then
              schedInsert as
                (quantKey (t + ANIMAL_UPDATE_TICK_SECONDS) ANIMAL_UPDATE_TICK_SECONDS)
                (upd t o)
            else as)).2.2) := by
  simp [processCreatures, ha, hk]

theorem processCreatures_trace (upd : ℚ → Org → Org) (t : ℚ) :
    ∀ (os : List Org) (ps as : Sched),
      (processCreatures upd t os ps as).2.2 =
        (os.filter fun o => o.alive).map fun o => Ev.tick t o.oid := by
  intro os
  induction os with
  | nil => intro ps as; rfl
  | cons o rest ih =>
    intro ps as
    cases ha : o.alive
    · rw [processCreatures_cons_dead _ _ _ _ _ ha, ih]
      simp [List.filter_cons, ha]
    · cases hk : o.kind
      · rw [processCreatures_cons_plant _ _ _ _ _ ha hk]
        simp [List.filter_cons, ha, ih]
      · rw [processCreatures_cons_animal _ _ _ _ _ ha hk]
        simp [List.filter_cons, ha, ih]

theorem processCreatures_occ (upd : ℚ → Org → Org) (t : ℚ) (i : ℕ)
    (hupd : ∀ s o, (upd s o).oid = o.oid ∧ (upd s o).alive = o.alive) :
    ∀ (os : List Org) (ps as : Sched),
      occCount (processCreatures upd t os ps as).1 i =
          occCount ps i +
            os.countP (fun o => o.alive && (o.kind == OrgKind.plant) && (o.oid == i)) ∧
        occCount (processCreatures upd t os ps as).2.1 i =
          occCount as i +
            os.countP (fun o => o.alive && (o.kind == OrgKind.animal) && (o.oid == i)) := by
  intro os
  induction os with
  | nil => intro ps as; simp [processCreatures_nil, List.countP_nil]
  | cons o rest ih =>
    intro ps as
    cases ha : o.alive
    · rw [processCreatures_cons_dead _ _ _ _ _ ha]
      rcases ih ps as with ⟨ih1, ih2⟩
      constructor
      · rw [ih1]
        simp [List.countP_cons, ha]
      · rw [ih2]
        simp [List.countP_cons, ha]
    · cases hk : o.kind
      · rw [processCreatures_cons_plant _ _ _ _ _ ha hk,
          if_pos (by rw [(hupd t o).2, ha])]
        rcases ih (schedInsert ps
          (quantKey (t + PLANT_LOGIC_UPDATE_INTERVAL_SECONDS)
            PLANT_LOGIC_UPDATE_INTERVAL_SECONDS) (upd t o)) as with ⟨ih1, ih2⟩
        constructor
        · rw [ih1, occCount_insert, (hupd t o).1]
          simp only [List.countP_cons, ha, hk]
          by_cases ho : o.oid = i <;> simp [ho] <;> omega
        · rw [ih2]
          simp [List.countP_cons, ha, hk]
      · rw [processCreatures_cons_animal _ _ _ _ _ ha hk,
          if_pos (by rw [(hupd t o).2, ha])]
        rcases ih ps (schedInsert as
          (quantKey (t + ANIMAL_UPDATE_TICK_SECONDS) ANIMAL_UPDATE_TICK_SECONDS)
          (upd t o)) with ⟨ih1, ih2⟩
        constructor
        · rw [ih1]
          simp [List.countP_cons, ha, hk]
        · rw [ih2, occCount_insert, (hupd t o).1]
          simp only [List.countP_cons, ha, hk]
          by_cases ho : o.oid = i <;> simp [ho] <;> omega

theorem processCreatures_wf (upd : ℚ → Org → Org) (t : ℚ) :
    ∀ (os : List Org) (ps as : Sched),
      wfSched PLANT_LOGIC_UPDATE_INTERVAL_SECONDS ps →
      wfSched ANIMAL_UPDATE_TICK_SECONDS as →
      wfSched PLANT_LOGIC_UPDATE_INTERVAL_SECONDS (processCreatures upd t os ps as).1 ∧
        wfSched ANIMAL_UPDATE_TICK_SECONDS (processCreatures upd t os ps as).2.1 := by
  intro os
  induction os with
  | nil => intro ps as hp ha2; exact ⟨hp, ha2⟩
  | cons o rest ih =>
    intro ps as hp ha2
    cases ha : o.alive
    · rw [processCreatures_cons_dead _ _ _ _ _ ha]
      exact ih ps as hp ha2
    · cases hk : o.kind
      · rw [processCreatures_cons_plant _ _ _ _ _ ha hk]
        by_cases h2 : (upd t o).alive = true
        · rw [if_pos h2]
          exact ih _ _ (wfSched_insert hp (quantKey_form _ _)) ha2
        · rw [if_neg h2]
          exact ih _ _ hp ha2
      · rw [processCreatures_cons_animal _ _ _ _ _ ha hk]
        by_cases h2 : (upd t o).alive = true
        · rw [if_pos h2]
          exact ih _ _ hp (wfSched_insert ha2 (quantKey_form _ _))
        · rw [if_neg h2]
          exact ih _ _ hp ha2

theorem processCreatures_nodup (upd : ℚ → Org → Org) (t : ℚ) :
    ∀ (os : List Org) (ps as : Sched),
      (schedKeys ps).Nodup → (schedKeys as).Nodup →
      (schedKeys (processCreatures upd t os ps as).1).Nodup ∧
        (schedKeys (processCreatures upd t os ps as).2.1).Nodup := by
  intro os
  induction os with
  | nil => intro ps as hp ha2; exact ⟨hp, ha2⟩
  | cons o rest ih =>
    intro ps as hp ha2
    cases ha : o.alive
    · rw [processCreatures_cons_dead _ _ _ _ _ ha]
      exact ih ps as hp ha2
    · cases hk : o.kind
      · rw [processCreatures_cons_plant _ _ _ _ _ ha hk]
        by_cases h2 : (upd t o).alive = true
        · rw [if_pos h2]
          exact ih _ _ (nodup_schedKeys_insert hp) ha2
        · rw [if_neg h2]
          exact ih _ _ hp ha2
      · rw [processCreatures_cons_animal _ _ _ _ _ ha hk]
        by_cases h2 : (upd t o).alive = true
        · rw [if_pos h2]
          exact ih _ _ hp (nodup_schedKeys_insert ha2)
        · rw [if_neg h2]
          exact ih _ _ hp ha2

theorem processCreatures_keys (upd : ℚ → Org → Org) (t : ℚ) :
    ∀ (os : List Org) (ps as : Sched),
      (∀ x ∈ schedKeys (processCreatures upd t os ps as).1,
        x ∈ schedKeys ps ∨
          x = quantKey (t + PLANT_LOGIC_UPDATE_INTERVAL_SECONDS)
            PLANT_LOGIC_UPDATE_INTERVAL_SECONDS) ∧
      (∀ x ∈ schedKeys (processCreatures upd t os ps as).2.1,
        x ∈ schedKeys as ∨
          x = quantKey (t + ANIMAL_UPDATE_TICK_SECONDS) ANIMAL_UPDATE_TICK_SECONDS) := by
  intro os
  induction os with
  | nil => intro ps as; exact ⟨fun x hx => Or.inl hx, fun x hx => Or.inl hx⟩
  | cons o rest ih =>
    intro ps as
    cases ha : o.alive
    · rw [processCreatures_cons_dead _ _ _ _ _ ha]
      exact ih ps as
    · cases hk : o.kind
      · rw [processCreatures_cons_plant _ _ _ _ _ ha hk]
        by_cases h2 : (upd t o).alive = true
        · rw [if_pos h2]
          refine ⟨fun x hx => ?_, (ih _ as).2⟩
          rcases (ih _ as).1 x hx with h3 | h3
          · rcases mem_schedKeys_insert.mp h3 with h4 | h4
            · exact Or.inl h4
            · exact Or.inr h4
          · exact Or.inr h3
        · rw [if_neg h2]
          exact ih ps as
      · rw [processCreatures_cons_animal _ _ _ _ _ ha hk]
        by_cases h2 : (upd t o).alive = true
        · rw [if_pos h2]
          refine ⟨(ih ps _).1, fun x hx => ?_⟩
          rcases (ih ps _).2 x hx with h3 | h3
          · rcases mem_schedKeys_insert.mp h3 with h4 | h4
            · exact Or.inl h4
            · exact Or.inr h4
          · exact Or.inr h3
        · rw [if_neg h2]
          exact ih ps as

theorem processCreatures_orgAt (upd : ℚ → Org → Org) (t : ℚ) {k0 : ℚ} {o0 : Org} :
    ∀ (os : List Org) (ps as : Sched),
      orgAt ps k0 o0 → orgAt (processCreatures upd t os ps as).1 k0 o0 := by
  intro os
  induction os with
  | nil => intro ps as h; exact h
  | cons o rest ih =>
    intro ps as h
    cases ha : o.alive
    · rw [processCreatures_cons_dead _ _ _ _ _ ha]
      exact ih ps as h
    · cases hk : o.kind
      · rw [processCreatures_cons_plant _ _ _ _ _ ha hk]
        by_cases h2 : (upd t o).alive = true
        · rw [if_pos h2]
          exact ih _ as (orgAt_insert_mono _ _ h)
        · rw [if_neg h2]
          exact ih ps as h
      · rw [processCreatures_cons_animal _ _ _ _ _ ha hk]
        by_cases h2 : (upd t o).alive = true
        · rw [if_pos h2]
          exact ih ps _ h
        · rw [if_neg h2]
          exact ih ps as h

theorem processCreatures_orgAt_self (upd : ℚ → Org → Org) (t : ℚ) {o : Org} :
    ∀ (os : List Org) (ps as : Sched),
      o ∈ os → o.alive = true → o.kind = OrgKind.plant → (upd t o).alive = true →
      orgAt (processCreatures upd t os ps as).1
        (quantKey (t + PLANT_LOGIC_UPDATE_INTERVAL_SECONDS)
          PLANT_LOGIC_UPDATE_INTERVAL_SECONDS) (upd t o) := by
  intro os
  induction os with
  | nil => intro ps as h; exact absurd h (List.not_mem_nil o)
  | cons o1 rest ih =>
    intro ps as hmem ha hk ha2
    rcases List.mem_cons.mp hmem with rfl | hmem2
    · rw [processCreatures_cons_plant _ _ _ _ _ ha hk, if_pos ha2]
      exact processCreatures_orgAt upd t rest _ as (orgAt_insert_self _ _ _)
    · cases ha1 : o1.alive
      · rw [processCreatures_cons_dead _ _ _ _ _ ha1]
        exact ih ps as hmem2 ha hk ha2
      · cases hk1 : o1.kind
        · rw [processCreatures_cons_plant _ _ _ _ _ ha1 hk1]
          exact ih _ as hmem2 ha hk ha2
        · rw [processCreatures_cons_animal _ _ _ _ _ ha1 hk1]
          exact ih ps _ hmem2 ha hk ha2

/-! ## Trace utilities -/

theorem clockTrace_append (a b : List Ev) :
    clockTrace (a ++ b) = clockTrace a ++ clockTrace b := by
  simp [clockTrace]

theorem clockTrace_key (t : ℚ) (l : List Ev) :
    clockTrace (Ev.key t :: l) = t :: clockTrace l := by
  simp [clockTrace, List.filterMap_cons]

theorem clockTrace_ticks (t : ℚ) (l : List Org) :
    clockTrace (l.map fun o => Ev.tick t o.oid) = [] := by
  unfold clockTrace
  rw [List.filterMap_map]
  exact List.filterMap_eq_nil.mpr fun a _ => rfl

theorem tickTimes_append (a b : List Ev) (i : ℕ) :
    tickTimes (a ++ b) i = tickTimes a i ++ tickTimes b i := by
  simp [tickTimes]

theorem tickTimes_passTrace (i : ℕ) : tickTimes passTrace i = [] := rfl

theorem tickTimes_key (t : ℚ) (l : List Ev) (i : ℕ) :
    tickTimes (Ev.key t :: l) i = tickTimes l i := by
  simp [tickTimes, List.filterMap_cons]

theorem tickTimes_restore (t : ℚ) (i : ℕ) : tickTimes [Ev.restore t] i = [] := rfl

theorem tickTimes_final (t : ℚ) (i : ℕ) : tickTimes [Ev.final t] i = [] := rfl

theorem tickTimes_ticks (t : ℚ) (i : ℕ) (l : List Org) :
    tickTimes (l.map fun o => Ev.tick t o.oid) i =
      List.replicate (l.countP fun o => o.oid == i) t := by
  induction l with
  | nil => rfl
  | cons o rest ih =>
    simp only [List.map_cons, tickTimes, List.filterMap_cons] at ih ⊢
    by_cases ho : o.oid = i
    · simp [ho, List.countP_cons, ih, List.replicate_succ]
    · simp [ho, List.countP_cons, ih]

theorem tickTimes_compLoop (endT : ℚ) (i : ℕ) :
    ∀ (fuel : ℕ) (c : ℚ), tickTimes (compLoop fuel c endT).1 i = [] := by
  intro fuel
  induction fuel with
  | zero => intro c; rfl
  | succ n ih =>
    intro c
    simp only [compLoop]
    by_cases h : c < endT
    · rw [if_pos h]
      simp only [tickTimes, List.filterMap_cons]
      exact ih _
    · rw [if_neg h]
      rfl

theorem compLoop_spec (endT : ℚ) :
    ∀ (fuel : ℕ) (c : ℚ),
      List.Chain' (fun u v : ℚ => u < v) (clockTrace (compLoop fuel c endT).1) ∧
      ∀ x ∈ clockTrace (compLoop fuel c endT).1,
        c ≤ x ∧ x < endT ∧
          ∃ j : ℕ, x = c + (j : ℚ) * PLANT_COMPETITION_UPDATE_INTERVAL_SECONDS := by
  intro fuel
  induction fuel with
  | zero =>
    intro c
    exact ⟨List.chain'_nil, by intro x hx; simp [compLoop, clockTrace] at hx⟩
  | succ n ih =>
    intro c
    simp only [compLoop]
    by_cases h : c < endT
    · rw [if_pos h]
      dsimp only
      rw [show clockTrace (Ev.comp c ::
          (compLoop n (c + PLANT_COMPETITION_UPDATE_INTERVAL_SECONDS) endT).1) =
          c :: clockTrace (compLoop n (c + PLANT_COMPETITION_UPDATE_INTERVAL_SECONDS) endT).1
        from by simp [clockTrace, List.filterMap_cons]]
      obtain ⟨hchain, hmem⟩ := ih (c + PLANT_COMPETITION_UPDATE_INTERVAL_SECONDS)
      constructor
      · rw [List.chain'_cons']
        refine ⟨fun y hy => ?_, hchain⟩
        have hy2 := hmem y (List.mem_of_mem_head? hy)
        have := ICOMP_pos
        linarith [hy2.1]
      · intro x hx
        rcases List.mem_cons.mp hx with rfl | hx2
        · exact ⟨le_refl x, h, 0, by push_cast; ring⟩
        · obtain ⟨h1, h2, j, hj⟩ := hmem x hx2
          have := ICOMP_pos
          refine ⟨by linarith, h2, j + 1, ?_⟩
          rw [hj]
          push_cast
          ring
    · rw [if_neg h]
      exact ⟨List.chain'_nil, by intro x hx; simp [clockTrace] at hx⟩

/-! ## Event-loop lemmas -/

/-- The state produced by one iteration of the event loop at key `t`: both
buckets at `t` are popped and their creatures processed. -/
def stepState (upd : ℚ → Org → Org) (t : ℚ) (ps as : Sched) : Sched × Sched × List Ev :=
  processCreatures upd t ((schedPop ps t).1 ++ (schedPop as t).1)
    (schedPop ps t).2 (schedPop as t).2

theorem runEvents_zero (upd : ℚ → Org → Org) (endT : ℚ) (ps as : Sched) :
    runEvents upd endT 0 ps as = (ps, as, []) := rfl

theorem runEvents_succ_none (upd : ℚ → Org → Org) (endT : ℚ) (fuel : ℕ) (ps as : Sched)
    (h : nextEvTime ps as = none) :
    runEvents upd endT (fuel + 1) ps as = (ps, as, []) := by
  simp [runEvents, h]

theorem runEvents_succ_stop (upd : ℚ → Org → Org) (endT : ℚ) (fuel : ℕ) (ps as : Sched)
    (t : ℚ) (h : nextEvTime ps as = some t) (ht : ¬ t < endT) :
    runEvents upd endT (fuel + 1) ps as = (ps, as, []) := by
  simp [runEvents, h, ht]

theorem runEvents_succ_step (upd : ℚ → Org → Org) (endT : ℚ) (fuel : ℕ) (ps as : Sched)
    (t : ℚ) (h : nextEvTime ps as = some t) (ht : t < endT) :
    runEvents upd endT (fuel + 1) ps as =
      ((runEvents upd endT fuel (stepState upd t ps as).1 (stepState upd t ps as).2.1).1,
       (runEvents upd endT fuel (stepState upd t ps as).1 (stepState upd t ps as).2.1).2.1,
       (Ev.key t :: (stepState upd t ps as).2.2) ++
         (runEvents upd endT fuel (stepState upd t ps as).1
           (stepState upd t ps as).2.1).2.2) := by
  simp [runEvents, h, ht, stepState]

theorem stepState_keys_gt (upd : ℚ → Org → Org) {ps as : Sched} {t : ℚ}
    (hnext : nextEvTime ps as = some t)
    (hnp : (schedKeys ps).Nodup) (hna : (schedKeys as).Nodup) :
    (∀ x ∈ schedKeys (stepState upd t ps as).1, t < x) ∧
      (∀ x ∈ schedKeys (stepState upd t ps as).2.1, t < x) := by
  constructor
  · intro x hx
    rcases (processCreatures_keys upd t _ _ _).1 x hx with h | h
    · rw [schedKeys_pop] at h
      rcases (List.Nodup.mem_erase_iff hnp).mp h with ⟨hne, hmem⟩
      exact lt_of_le_of_ne (nextEvTime_le_ps hnext x hmem) (Ne.symm hne)
    · rw [h]
      exact quantKey_gt t _ IP_pos
  · intro x hx
    rcases (processCreatures_keys upd t _ _ _).2 x hx with h | h
    · rw [schedKeys_pop] at h
      rcases (List.Nodup.mem_erase_iff hna).mp h with ⟨hne, hmem⟩
      exact lt_of_le_of_ne (nextEvTime_le_as hnext x hmem) (Ne.symm hne)
    · rw [h]
      exact quantKey_gt t _ IA_pos

theorem stepState_nodup (upd : ℚ → Org → Org) (t : ℚ) {ps as : Sched}
    (hnp : (schedKeys ps).Nodup) (hna : (schedKeys as).Nodup) :
    (schedKeys (stepState upd t ps as).1).Nodup ∧
      (schedKeys (stepState upd t ps as).2.1).Nodup := by
  apply processCreatures_nodup
  · rw [schedKeys_pop]
    exact hnp.erase t
  · rw [schedKeys_pop]
    exact hna.erase t

theorem stepState_clock_nil (upd : ℚ → Org → Org) (t : ℚ) (ps as : Sched) :
    clockTrace (stepState upd t ps as).2.2 = [] := by
  unfold stepState
  rw [processCreatures_trace]
  exact clockTrace_ticks _ _

theorem runEvents_clock_chain (upd : ℚ → Org → Org) (endT : ℚ) :
    ∀ (fuel : ℕ) (ps as : Sched) (b : ℚ),
      (∀ x ∈ schedKeys ps, b < x) → (∀ x ∈ schedKeys as, b < x) →
      (schedKeys ps).Nodup → (schedKeys as).Nodup →
      List.Chain' (fun u v : ℚ => u < v)
          (clockTrace (runEvents upd endT fuel ps as).2.2) ∧
        ∀ x ∈ clockTrace (runEvents upd endT fuel ps as).2.2, b < x ∧ x < endT := by
  intro fuel
  induction fuel with
  | zero =>
    intro ps as b _ _ _ _
    rw [runEvents_zero]
    exact ⟨List.chain'_nil, by intro x hx; simp [clockTrace] at hx⟩
  | succ n ih =>
    intro ps as b hbp hba hnp hna
    cases hnext : nextEvTime ps as with
    | none =>
      rw [runEvents_succ_none _ _ _ _ _ hnext]
      exact ⟨List.chain'_nil, by intro x hx; simp [clockTrace] at hx⟩
    | some t =>
      by_cases ht : t < endT
      · rw [runEvents_succ_step _ _ _ _ _ _ hnext ht]
        have hbt : b < t := by
          rcases nextEvTime_mem hnext with h | h
          · exact hbp t h
          · exact hba t h
        have hkeys := stepState_keys_gt upd hnext hnp hna
        have hnd := stepState_nodup upd t hnp hna
        obtain ⟨hchain, hmem⟩ :=
          ih (stepState upd t ps as).1 (stepState upd t ps as).2.1 t
            hkeys.1 hkeys.2 hnd.1 hnd.2
        rw [clockTrace_append,
          show clockTrace (Ev.key t :: (stepState upd t ps as).2.2) = [t] from by
            rw [clockTrace_key, stepState_clock_nil]]
        rw [List.singleton_append]
        constructor
        · rw [List.chain'_cons']
          refine ⟨fun y hy => ?_, hchain⟩
          exact (hmem y (List.mem_of_mem_head? hy)).1
        · intro x hx
          rcases List.mem_cons.mp hx with rfl | hx2
          · exact ⟨hbt, ht⟩
          · obtain ⟨h1, h2⟩ := hmem x hx2
            exact ⟨lt_trans hbt h1, h2⟩
      · rw [runEvents_succ_stop _ _ _ _ _ _ hnext ht]
        exact ⟨List.chain'_nil, by intro x hx; simp [clockTrace] at hx⟩

theorem runEvents_trace_nil_of_none (upd : ℚ → Org → Org) (endT : ℚ) (fuel : ℕ)
    {ps as : Sched} (h : nextEvTime ps as = none) :
    (runEvents upd endT fuel ps as).2.2 = [] := by
  cases fuel with
  | zero => rfl
  | succ n => rw [runEvents_succ_none _ _ _ _ _ h]

theorem runEvents_tick_key (upd : ℚ → Org → Org) (endT : ℚ) :
    ∀ (fuel : ℕ) (ps as : Sched) (t0 : ℚ) (oid : ℕ),
      Ev.tick t0 oid ∈ (runEvents upd endT fuel ps as).2.2 →
      Ev.key t0 ∈ (runEvents upd endT fuel ps as).2.2 := by
  intro fuel
  induction fuel with
  | zero =>
    intro ps as t0 oid h
    rw [runEvents_zero] at h
    exact absurd h (List.not_mem_nil _)
  | succ n ih =>
    intro ps as t0 oid h
    cases hnext : nextEvTime ps as with
    | none =>
      rw [runEvents_succ_none _ _ _ _ _ hnext] at h
      exact absurd h (List.not_mem_nil _)
    | some t =>
      by_cases ht : t < endT
      · rw [runEvents_succ_step _ _ _ _ _ _ hnext ht] at h ⊢
        rcases List.mem_append.mp h with h2 | h2
        · rcases List.mem_cons.mp h2 with h3 | h3
          · exact absurd h3 (by simp)
          · have : t0 = t := by
              unfold stepState at h3
              rw [processCreatures_trace] at h3
              obtain ⟨o1, _, heq⟩ := List.mem_map.mp h3
              exact (Ev.tick.injEq _ _ _ _).mp heq.symm |>.1
            rw [this]
            exact List.mem_append_left _ (List.mem_cons_self _ _)
        · exact List.mem_append_right _ (ih _ _ _ _ h2)
      · rw [runEvents_succ_stop _ _ _ _ _ _ hnext ht] at h
        exact absurd h (List.not_mem_nil _)

theorem eq_of_countP_le_one {l : List Org} {p : Org → Bool} (h : l.countP p = 1)
    {a b : Org} (ha : a ∈ l) (hb : b ∈ l) (hpa : p a = true) (hpb : p b = true) :
    a = b := by
  rw [List.countP_eq_length_filter] at h
  obtain ⟨x, hx⟩ := List.length_eq_one.mp h
  have ha2 : a ∈ l.filter p := List.mem_filter.mpr ⟨ha, hpa⟩
  have hb2 : b ∈ l.filter p := List.mem_filter.mpr ⟨hb, hpb⟩
  rw [hx] at ha2 hb2
  rw [List.mem_singleton.mp ha2, List.mem_singleton.mp hb2]

theorem runEvents_tickTimes (upd : ℚ → Org → Org) (endT : ℚ) (i : ℕ)
    (hupd : ∀ s o2, (upd s o2).oid = o2.oid ∧ (upd s o2).kind = o2.kind ∧
      (upd s o2).alive = o2.alive) :
    ∀ (fuel : ℕ) (ps as : Sched) (k : ℚ) (o : Org),
      wfSched PLANT_LOGIC_UPDATE_INTERVAL_SECONDS ps →
      wfSched ANIMAL_UPDATE_TICK_SECONDS as →
      orgAt ps k o → o.oid = i → o.kind = OrgKind.plant → o.alive = true →
      occCount ps i = 1 → occCount as i = 0 →
      (∀ t2, nextEvTime (runEvents upd endT fuel ps as).1
          (runEvents upd endT fuel ps as).2.1 = some t2 → endT ≤ t2) →
      tickTimes (runEvents upd endT fuel ps as).2.2 i =
        (List.range (ticksLeft endT PLANT_LOGIC_UPDATE_INTERVAL_SECONDS k)).map
          (fun j : ℕ => k + (j : ℚ) * PLANT_LOGIC_UPDATE_INTERVAL_SECONDS) := by
  intro fuel
  induction fuel with
  | zero =>
    intro ps as k o hwp hwa hat hoid hkind halive hop hoa hdone
    rw [runEvents_zero] at hdone ⊢
    cases hnext : nextEvTime ps as with
    | none =>
      exfalso
      obtain ⟨e, he, _⟩ := hat
      rw [(nextEvTime_none hnext).1] at he
      exact List.not_mem_nil e he
    | some t =>
      have hET : endT ≤ t := hdone t hnext
      have htk : t ≤ k := nextEvTime_le_ps hnext k (mem_schedKeys_of_orgAt hat)
      have h0 : ticksLeft endT PLANT_LOGIC_UPDATE_INTERVAL_SECONDS k = 0 := by
        unfold ticksLeft
        rw [if_neg (not_lt.mpr (by linarith))]
      rw [h0]
      rfl
  | succ n ih =>
    intro ps as k o hwp hwa hat hoid hkind halive hop hoa hdone
    cases hnext : nextEvTime ps as with
    | none =>
      exfalso
      obtain ⟨e, he, _⟩ := hat
      rw [(nextEvTime_none hnext).1] at he
      exact List.not_mem_nil e he
    | some t =>
      by_cases ht : t < endT
      case neg =>
        rw [runEvents_succ_stop _ _ _ _ _ _ hnext ht]
        have hET : endT ≤ t := not_lt.mp ht
        have htk : t ≤ k := nextEvTime_le_ps hnext k (mem_schedKeys_of_orgAt hat)
        have h0 : ticksLeft endT PLANT_LOGIC_UPDATE_INTERVAL_SECONDS k = 0 := by
          unfold ticksLeft
          rw [if_neg (not_lt.mpr (by linarith))]
        rw [h0]
        rfl
      case pos =>
        rw [runEvents_succ_step _ _ _ _ _ _ hnext ht] at hdone ⊢
        have hocc_ps := occCount_pop ps t i
        have hocc_as := occCount_pop as t i
        have hocc_as0 : (schedPop as t).1.countP (fun o => o.oid == i) = 0 ∧
            occCount (schedPop as t).2 i = 0 := by omega
        rw [tickTimes_append, tickTimes_key]
        have hseg : tickTimes (stepState upd t ps as).2.2 i =
            List.replicate
              ((((schedPop ps t).1 ++ (schedPop as t).1).filter fun o => o.alive).countP
                fun o => o.oid == i) t := by
          unfold stepState
          rw [processCreatures_trace, tickTimes_ticks]
        have hwf2 := processCreatures_wf upd t ((schedPop ps t).1 ++ (schedPop as t).1)
          (schedPop ps t).2 (schedPop as t).2 (wfSched_pop t hwp) (wfSched_pop t hwa)
        have hoccs := processCreatures_occ upd t i
          (fun s o2 => ⟨(hupd s o2).1, (hupd s o2).2.2⟩)
          ((schedPop ps t).1 ++ (schedPop as t).1) (schedPop ps t).2 (schedPop as t).2
        by_cases hcase : t = k
        · subst hcase
          have homem : o ∈ (schedPop ps t).1 := mem_pop_fst hwp.2 hat
          have h1 : 1 ≤ (schedPop ps t).1.countP (fun o => o.oid == i) :=
            List.countP_pos_iff.mpr ⟨o, homem, by simp [hoid]⟩
          have hcnt_pp : (schedPop ps t).1.countP (fun o => o.oid == i) = 1 ∧
              occCount (schedPop ps t).2 i = 0 := by omega
          have hseg_cnt : (((schedPop ps t).1 ++ (schedPop as t).1).filter
              fun o => o.alive).countP (fun o => o.oid == i) = 1 := by
            rw [List.countP_filter, List.countP_append]
            have hle1 : ((schedPop ps t).1.countP fun o => (o.oid == i) && o.alive) ≤
                (schedPop ps t).1.countP (fun o => o.oid == i) :=
              List.countP_mono_left (fun a _ h2 => by
                rw [Bool.and_eq_true] at h2
                exact h2.1)
            have hge1 : 1 ≤ ((schedPop ps t).1.countP fun o => (o.oid == i) && o.alive) :=
              List.countP_pos_iff.mpr ⟨o, homem, by simp [hoid, halive]⟩
            have hle2 : ((schedPop as t).1.countP fun o => (o.oid == i) && o.alive) ≤
                (schedPop as t).1.countP (fun o => o.oid == i) :=
              List.countP_mono_left (fun a _ h2 => by
                rw [Bool.and_eq_true] at h2
                exact h2.1)
            omega
          obtain ⟨e, he, hek, _⟩ := hat
          obtain ⟨⟨m, hm⟩, _⟩ := hwp.1 e he
          have hk_mul : t = (m : ℚ) * PLANT_LOGIC_UPDATE_INTERVAL_SECONDS := by
            rw [← hek]
            exact hm
          have hquant : quantKey (t + PLANT_LOGIC_UPDATE_INTERVAL_SECONDS)
              PLANT_LOGIC_UPDATE_INTERVAL_SECONDS =
              t + PLANT_LOGIC_UPDATE_INTERVAL_SECONDS := by
            rw [show t + PLANT_LOGIC_UPDATE_INTERVAL_SECONDS =
                ((m + 1 : ℤ) : ℚ) * PLANT_LOGIC_UPDATE_INTERVAL_SECONDS from by
              push_cast
              rw [hk_mul]
              ring]
            exact quantKey_mul _ _ (ne_of_gt IP_pos)
          have ho2 := hupd t o
          have halive2 : (upd t o).alive = true := by rw [ho2.2.2, halive]
          have hat2 : orgAt (stepState upd t ps as).1
              (t + PLANT_LOGIC_UPDATE_INTERVAL_SECONDS) (upd t o) := by
            have h3 := processCreatures_orgAt_self upd t
              ((schedPop ps t).1 ++ (schedPop as t).1) (schedPop ps t).2 (schedPop as t).2
              (List.mem_append_left _ homem) halive hkind halive2
            unfold stepState
            rwa [hquant] at h3
          have hcnt_all : ((schedPop ps t).1 ++ (schedPop as t).1).countP
              (fun o => o.oid == i) = 1 := by
            rw [List.countP_append]
            omega
          have hplant_cnt : ((schedPop ps t).1 ++ (schedPop as t).1).countP
              (fun o => o.alive && (o.kind == OrgKind.plant) && (o.oid == i)) = 1 := by
            have hle : (((schedPop ps t).1 ++ (schedPop as t).1).countP
                (fun o => o.alive && (o.kind == OrgKind.plant) && (o.oid == i))) ≤
                ((schedPop ps t).1 ++ (schedPop as t).1).countP (fun o => o.oid == i) :=
              List.countP_mono_left (fun a _ h2 => by
                rw [Bool.and_eq_true] at h2
                exact h2.2)
            have hge : 1 ≤ (((schedPop ps t).1 ++ (schedPop as t).1).countP
                (fun o => o.alive && (o.kind == OrgKind.plant) && (o.oid == i))) :=
              List.countP_pos_iff.mpr ⟨o, List.mem_append_left _ homem,
                by simp [halive, hkind, hoid]⟩
            omega
          have hanimal_cnt : ((schedPop ps t).1 ++ (schedPop as t).1).countP
              (fun o => o.alive && (o.kind == OrgKind.animal) && (o.oid == i)) = 0 := by
            rw [List.countP_eq_zero]
            intro a ha hpa
            rw [Bool.and_eq_true] at hpa
            have haoid : a.oid = i := by simpa using hpa.2
            have hao : a = o := eq_of_countP_le_one hcnt_all ha
              (List.mem_append_left _ homem) (by simp [haoid]) (by simp [hoid])
            rw [hao, Bool.and_eq_true] at hpa
            rw [hkind] at hpa
            simpa using hpa.1.2
          have hocc1 : occCount (stepState upd t ps as).1 i = 1 := by
            unfold stepState
            rw [hoccs.1, hplant_cnt]
            omega
          have hocc2 : occCount (stepState upd t ps as).2.1 i = 0 := by
            unfold stepState
            rw [hoccs.2, hanimal_cnt]
            omega
          have hrec := ih (stepState upd t ps as).1 (stepState upd t ps as).2.1
            (t + PLANT_LOGIC_UPDATE_INTERVAL_SECONDS) (upd t o) hwf2.1 hwf2.2 hat2
            (by rw [ho2.1, hoid]) (by rw [ho2.2.1, hkind]) halive2 hocc1 hocc2 hdone
          rw [hseg, hseg_cnt, hrec]
          rw [ticksLeft_step endT _ t IP_pos ht]
          rw [List.range_succ_eq_map, List.map_cons, List.map_map]
          rw [List.replicate_one, List.singleton_append]
          congr 1
          · push_cast
            ring
          · apply List.map_congr_left
            intro j hj
            show t + PLANT_LOGIC_UPDATE_INTERVAL_SECONDS +
                (j : ℚ) * PLANT_LOGIC_UPDATE_INTERVAL_SECONDS =
              t + ((Nat.succ j : ℕ) : ℚ) * PLANT_LOGIC_UPDATE_INTERVAL_SECONDS
            push_cast
            ring
        · have hne : k ≠ t := fun h => hcase h.symm
          have hat_pp : orgAt (schedPop ps t).2 k o := orgAt_pop t hne hat
          have h1le : 1 ≤ occCount (schedPop ps t).2 i := one_le_occCount hat_pp hoid
          have hcnt_pp0 : (schedPop ps t).1.countP (fun o => o.oid == i) = 0 ∧
              occCount (schedPop ps t).2 i = 1 := by omega
          have hcnt_all0 : ((schedPop ps t).1 ++ (schedPop as t).1).countP
              (fun o => o.oid == i) = 0 := by
            rw [List.countP_append]
            omega
          have hnooid := List.countP_eq_zero.mp hcnt_all0
          have hseg_cnt0 : (((schedPop ps t).1 ++ (schedPop as t).1).filter
              fun o => o.alive).countP (fun o => o.oid == i) = 0 := by
            rw [List.countP_eq_zero]
            intro a ha2
            exact hnooid a (List.mem_of_mem_filter ha2)
          have hplant_cnt0 : ((schedPop ps t).1 ++ (schedPop as t).1).countP
              (fun o => o.alive && (o.kind == OrgKind.plant) && (o.oid == i)) = 0 := by
            rw [List.countP_eq_zero]
            intro a ha hpa
            rw [Bool.and_eq_true] at hpa
            exact hnooid a ha hpa.2
          have hanimal_cnt0 : ((schedPop ps t).1 ++ (schedPop as t).1).countP
              (fun o => o.alive && (o.kind == OrgKind.animal) && (o.oid == i)) = 0 := by
            rw [List.countP_eq_zero]
            intro a ha hpa
            rw [Bool.and_eq_true] at hpa
            exact hnooid a ha hpa.2
          have hat2 : orgAt (stepState upd t ps as).1 k o := by
            unfold stepState
            exact processCreatures_orgAt upd t _ _ _ hat_pp
          have hocc1 : occCount (stepState upd t ps as).1 i = 1 := by
            unfold stepState
            rw [hoccs.1, hplant_cnt0]
            omega
          have hocc2 : occCount (stepState upd t ps as).2.1 i = 0 := by
            unfold stepState
            rw [hoccs.2, hanimal_cnt0]
            omega
          have hrec := ih (stepState upd t ps as).1 (stepState upd t ps as).2.1 k o
            hwf2.1 hwf2.2 hat2 hoid hkind halive hocc1 hocc2 hdone
          rw [hseg, hseg_cnt0, hrec, List.replicate_zero, List.nil_append]

/-! ## Concrete scheduler scenarios -/

/-- The initial scheduler state: clock zero, both dictionaries empty, first
competition rebuild due at time zero (as `World.__init__` sets up). -/
def world0 : SchedWorld := ⟨0, [], [], 0⟩

/-- A trivial environment (all fields zero); the scheduler path never reads
it. -/
noncomputable def envTriv : EnvM := ⟨fun _ _ => 0, fun _ _ => 0, fun _ _ => 0⟩

/-- An empty manager-array state. -/
noncomputable def pmTriv : PMArr :=
  ⟨0, fun _ => 0, fun _ => 0, fun _ => 0, fun _ => 0, fun _ => 0, fun _ => 0,
   fun _ => 0, fun _ => none, fun _ => 0, fun _ => 0, fun _ => 0, fun _ => 0,
   fun _ => 0, fun _ => 0, fun _ => 0, fun _ => 0, fun _ => 0⟩

/-- A live plant organism with id 7. -/
def o7 : Org := ⟨7, OrgKind.plant, true⟩

theorem compLoop_succ_lt {c endT : ℚ} (n : ℕ) (h : c < endT) :
    compLoop (n + 1) c endT =
      (Ev.comp c :: (compLoop n (c + PLANT_COMPETITION_UPDATE_INTERVAL_SECONDS) endT).1,
       (compLoop n (c + PLANT_COMPETITION_UPDATE_INTERVAL_SECONDS) endT).2) := by
  simp [compLoop, h]

theorem compLoop_succ_ge {c endT : ℚ} (n : ℕ) (h : ¬ c < endT) :
    compLoop (n + 1) c endT = ([], c) := by
  simp [compLoop, h]

/-! ## Claim theorems: scheduler and passes -/

theorem update_in_bulk_pm (env : EnvM) (upd : ℚ → Org → Org) (w : SchedWorld)
    (pm : PMArr) (dt : ℚ) (cfuel efuel : ℕ) :
    (update_in_bulk env upd w pm dt cfuel efuel).2.1 = applyBulkPasses env pm := rfl

theorem update_in_bulk_trace (env : EnvM) (upd : ℚ → Org → Org) (w : SchedWorld)
    (pm : PMArr) (dt : ℚ) (cfuel efuel : ℕ) :
    (update_in_bulk env upd w pm dt cfuel efuel).2.2 =
      passTrace ++
        (compLoop cfuel w.next_competition_update_time (w.clock + dt)).1 ++
        [Ev.restore w.clock] ++
        (runEvents upd (w.clock + dt) efuel w.plant_update_schedule
          w.animal_update_schedule).2.2 ++
        [Ev.final (w.clock + dt)] := by
  simp only [update_in_bulk]

theorem applyBulkPasses_count (env : EnvM) (pm : PMArr) :
    (applyBulkPasses env pm).count = pm.count := by
  simp [applyBulkPasses, update_aging_efficiencies, update_hydraulic_efficiencies,
    update_environmental_efficiencies, update_soil_efficiencies,
    update_photosynthesis_gains, update_metabolism_costs]

set_option maxHeartbeats 2000000 in
theorem applyBulkPasses_live (env : EnvM) (pm : PMArr) (i : ℕ) (hi : i < pm.count) :
    (applyBulkPasses env pm).aging_efficiencies i =
        Real.exp (-(pm.ages i / PLANT_SENESCENCE_TIMESCALE_SECONDS)) ∧
      (applyBulkPasses env pm).hydraulic_efficiencies i =
        Real.exp (-(pm.heights i / PLANT_MAX_HYDRAULIC_HEIGHT_CM)) ∧
      (applyBulkPasses env pm).environmental_efficiencies i =
        Real.exp (-((|env.temperature (pm.posx i) (pm.posy i) - PLANT_OPTIMAL_TEMPERATURE| /
            PLANT_TEMPERATURE_TOLERANCE) ^ 2)) *
          Real.exp (-((|env.humidity (pm.posx i) (pm.posy i) - PLANT_OPTIMAL_HUMIDITY| /
            PLANT_HUMIDITY_TOLERANCE) ^ 2)) ∧
      (applyBulkPasses env pm).soil_efficiencies i =
        soilEffOf (pm.soil_type_ids i) *
          min 1 (pm.root_radii i / (pm.radii i + 1) * PLANT_ROOT_EFFICIENCY_FACTOR) *
          (max 0 (Real.pi * pm.root_radii i ^ 2 - pm.overlapped_root_areas i) /
            (Real.pi * pm.root_radii i ^ 2 + 1 / 1000000000)) ∧
      (applyBulkPasses env pm).photosynthesis_gains_per_second i =
        (max 0 (Real.pi * pm.radii i ^ 2 - pm.shaded_canopy_areas i)) *
          PLANT_PHOTOSYNTHESIS_PER_AREA *
          (applyBulkPasses env pm).environmental_efficiencies i *
          (applyBulkPasses env pm).soil_efficiencies i *
          (applyBulkPasses env pm).aging_efficiencies i *
          (applyBulkPasses env pm).hydraulic_efficiencies i ∧
      (applyBulkPasses env pm).metabolism_costs_per_second i =
        (Real.pi * pm.radii i ^ 2 + Real.pi * pm.root_radii i ^ 2 +
            Real.pi * pm.core_radii i ^ 2) *
          PLANT_BASE_MAINTENANCE_RESPIRATION_PER_AREA *
          PLANT_Q10_FACTOR ^
            ((env.temperature (pm.posx i) (pm.posy i) -
                PLANT_RESPIRATION_REFERENCE_TEMP) / PLANT_Q10_INTERVAL_DIVISOR) ∧
      (applyBulkPasses env pm).canopy_areas i = Real.pi * pm.radii i ^ 2 := by
  refine ⟨?_, ?_, ?_, ?_, ?_, ?_, ?_⟩ <;>
    simp [applyBulkPasses, update_aging_efficiencies, update_hydraulic_efficiencies,
      update_environmental_efficiencies, update_soil_efficiencies,
      update_photosynthesis_gains, update_metabolism_costs, hi]

set_option maxHeartbeats 2000000 in
theorem applyBulkPasses_frozen (env : EnvM) (pm : PMArr) (i : ℕ) (hi : pm.count ≤ i) :
    (applyBulkPasses env pm).aging_efficiencies i = pm.aging_efficiencies i ∧
      (applyBulkPasses env pm).hydraulic_efficiencies i = pm.hydraulic_efficiencies i ∧
      (applyBulkPasses env pm).environmental_efficiencies i =
        pm.environmental_efficiencies i ∧
      (applyBulkPasses env pm).soil_efficiencies i = pm.soil_efficiencies i ∧
      (applyBulkPasses env pm).photosynthesis_gains_per_second i =
        pm.photosynthesis_gains_per_second i ∧
      (applyBulkPasses env pm).metabolism_costs_per_second i =
        pm.metabolism_costs_per_second i ∧
      (applyBulkPasses env pm).canopy_areas i = pm.canopy_areas i := by
  have hni : ¬ i < pm.count := not_lt.mpr hi
  refine ⟨?_, ?_, ?_, ?_, ?_, ?_, ?_⟩ <;>
    simp [applyBulkPasses, update_aging_efficiencies, update_hydraulic_efficiencies,
      update_environmental_efficiencies, update_soil_efficiencies,
      update_photosynthesis_gains, update_metabolism_costs, hni]

set_option maxHeartbeats 2000000 in
/-- Claim C3: on every bulk-advance call the manager arrays returned by
`update_in_bulk` are exactly `applyBulkPasses` of the input arrays, the
trace opens with the six vectorized pass events before any organism tick,
and each pass recomputes its entire live slice `[0, count)` in one pass
while leaving rows at and above `count` untouched. -/
theorem claim_C3_vectorized_passes_full_slice
    (env : EnvM) (upd : ℚ → Org → Org) (w : SchedWorld) (pm : PMArr)
    (dt : ℚ) (cfuel efuel : ℕ) :
    (update_in_bulk env upd w pm dt cfuel efuel).2.1 = applyBulkPasses env pm ∧
    (update_in_bulk env upd w pm dt cfuel efuel).2.2 =
      passTrace ++
        (compLoop cfuel w.next_competition_update_time (w.clock + dt)).1 ++
        [Ev.restore w.clock] ++
        (runEvents upd (w.clock + dt) efuel w.plant_update_schedule
          w.animal_update_schedule).2.2 ++
        [Ev.final (w.clock + dt)] ∧
    (∀ t oid, Ev.tick t oid ∉ passTrace) ∧
    (applyBulkPasses env pm).count = pm.count ∧
    (∀ i, i < pm.count →
      (applyBulkPasses env pm).aging_efficiencies i =
          Real.exp (-(pm.ages i / PLANT_SENESCENCE_TIMESCALE_SECONDS)) ∧
      (applyBulkPasses env pm).hydraulic_efficiencies i =
          Real.exp (-(pm.heights i / PLANT_MAX_HYDRAULIC_HEIGHT_CM)) ∧
      (applyBulkPasses env pm).environmental_efficiencies i =
          Real.exp (-((|env.temperature (pm.posx i) (pm.posy i) - PLANT_OPTIMAL_TEMPERATURE| /
              PLANT_TEMPERATURE_TOLERANCE) ^ 2)) *
            Real.exp (-((|env.humidity (pm.posx i) (pm.posy i) - PLANT_OPTIMAL_HUMIDITY| /
              PLANT_HUMIDITY_TOLERANCE) ^ 2)) ∧
      (applyBulkPasses env pm).soil_efficiencies i =
          soilEffOf (pm.soil_type_ids i) *
            min 1 (pm.root_radii i / (pm.radii i + 1) * PLANT_ROOT_EFFICIENCY_FACTOR) *
            (max 0 (Real.pi * pm.root_radii i ^ 2 - pm.overlapped_root_areas i) /
              (Real.pi * pm.root_radii i ^ 2 + 1 / 1000000000)) ∧
      (applyBulkPasses env pm).photosynthesis_gains_per_second i =
          (max 0 (Real.pi * pm.radii i ^ 2 - pm.shaded_canopy_areas i)) *
            PLANT_PHOTOSYNTHESIS_PER_AREA *
            (applyBulkPasses env pm).environmental_efficiencies i *
            (applyBulkPasses env pm).soil_efficiencies i *
            (applyBulkPasses env pm).aging_efficiencies i *
            (applyBulkPasses env pm).hydraulic_efficiencies i ∧
      (applyBulkPasses env pm).metabolism_costs_per_second i =
          (Real.pi * pm.radii i ^ 2 + Real.pi * pm.root_radii i ^ 2 +
              Real.pi * pm.core_radii i ^ 2) *
            PLANT_BASE_MAINTENANCE_RESPIRATION_PER_AREA *
            PLANT_Q10_FACTOR ^
              ((env.temperature (pm.posx i) (pm.posy i) -
                  PLANT_RESPIRATION_REFERENCE_TEMP) / PLANT_Q10_INTERVAL_DIVISOR) ∧
      (applyBulkPasses env pm).canopy_areas i = Real.pi * pm.radii i ^ 2) ∧
    (∀ i, pm.count ≤ i →
      (applyBulkPasses env pm).aging_efficiencies i = pm.aging_efficiencies i ∧
      (applyBulkPasses env pm).hydraulic_efficiencies i = pm.hydraulic_efficiencies i ∧
      (applyBulkPasses env pm).environmental_efficiencies i =
        pm.environmental_efficiencies i ∧
      (applyBulkPasses env pm).soil_efficiencies i = pm.soil_efficiencies i ∧
      (applyBulkPasses env pm).photosynthesis_gains_per_second i =
        pm.photosynthesis_gains_per_second i ∧
      (applyBulkPasses env pm).metabolism_costs_per_second i =
        pm.metabolism_costs_per_second i ∧
      (applyBulkPasses env pm).canopy_areas i = pm.canopy_areas i) :=
  ⟨update_in_bulk_pm env upd w pm dt cfuel efuel,
   update_in_bulk_trace env upd w pm dt cfuel efuel,
   fun t oid => by simp [passTrace],
   applyBulkPasses_count env pm,
   fun i hi => applyBulkPasses_live env pm i hi,
   fun i hi => applyBulkPasses_frozen env pm i hi⟩

/-- What is actually true of the clock inside one `update_in_bulk` call: the
trace is the six passes, then ALL due competition rebuilds in one strictly
increasing batch of exact scheduled rebuild times, then a clock restore to
the window start (which need not be an event time), then the organism
buckets at strictly increasing exact keys below the window end (every tick
reading exactly its bucket key), then the final assignment to the window
end. -/
def batchedTraceSpec (env : EnvM) (upd : ℚ → Org → Org) (w : SchedWorld) (pm : PMArr)
    (dt : ℚ) (cfuel efuel : ℕ) : Prop :=
  (update_in_bulk env upd w pm dt cfuel efuel).2.2 =
      passTrace ++
        (compLoop cfuel w.next_competition_update_time (w.clock + dt)).1 ++
        [Ev.restore w.clock] ++
        (runEvents upd (w.clock + dt) efuel w.plant_update_schedule
          w.animal_update_schedule).2.2 ++
        [Ev.final (w.clock + dt)] ∧
  List.Chain' (fun u v : ℚ => u < v)
      (clockTrace (compLoop cfuel w.next_competition_update_time (w.clock + dt)).1) ∧
  (∀ x ∈ clockTrace (compLoop cfuel w.next_competition_update_time (w.clock + dt)).1,
      x < w.clock + dt ∧
        ∃ j : ℕ, x = w.next_competition_update_time +
          (j : ℚ) * PLANT_COMPETITION_UPDATE_INTERVAL_SECONDS) ∧
  List.Chain' (fun u v : ℚ => u < v)
      (clockTrace (runEvents upd (w.clock + dt) efuel w.plant_update_schedule
        w.animal_update_schedule).2.2) ∧
  (∀ x ∈ clockTrace (runEvents upd (w.clock + dt) efuel w.plant_update_schedule
      w.animal_update_schedule).2.2, x < w.clock + dt) ∧
  (∀ t oid, Ev.tick t oid ∈ (runEvents upd (w.clock + dt) efuel
      w.plant_update_schedule w.animal_update_schedule).2.2 →
    Ev.key t ∈ (runEvents upd (w.clock + dt) efuel w.plant_update_schedule
      w.animal_update_schedule).2.2)

/-- Claim C2 (amended): within one bulk-advance call the clock visits the
due competition rebuilds batched first, each at its exact scheduled time in
strictly increasing order, is then restored to the window start, and then
visits the due bucket keys at their exact times in strictly increasing
order, every tick reading exactly its bucket key; the rebuilds are NOT
interleaved with the organism ticks, and the restore assignment breaks
global strict monotonicity of the clock trace (see the counterexample). -/
theorem claim_C2_amended_batched_clock (env : EnvM) (upd : ℚ → Org → Org)
    (w : SchedWorld) (pm : PMArr) (dt : ℚ) (cfuel efuel : ℕ)
    (hnp : (schedKeys w.plant_update_schedule).Nodup)
    (hna : (schedKeys w.animal_update_schedule).Nodup) :
    batchedTraceSpec env upd w pm dt cfuel efuel := by
  unfold batchedTraceSpec
  have hcomp := compLoop_spec (w.clock + dt) cfuel w.next_competition_update_time
  have hrunspec : List.Chain' (fun u v : ℚ => u < v)
      (clockTrace (runEvents upd (w.clock + dt) efuel w.plant_update_schedule
        w.animal_update_schedule).2.2) ∧
      ∀ x ∈ clockTrace (runEvents upd (w.clock + dt) efuel w.plant_update_schedule
        w.animal_update_schedule).2.2, x < w.clock + dt := by
    cases hne : nextEvTime w.plant_update_schedule w.animal_update_schedule with
    | none =>
      rw [runEvents_trace_nil_of_none upd (w.clock + dt) efuel hne]
      exact ⟨List.chain'_nil, by intro x hx; simp [clockTrace] at hx⟩
    | some t0 =>
      have hb := runEvents_clock_chain upd (w.clock + dt) efuel
        w.plant_update_schedule w.animal_update_schedule (t0 - 1)
        (fun x hx => by have := nextEvTime_le_ps hne x hx; linarith)
        (fun x hx => by have := nextEvTime_le_as hne x hx; linarith) hnp hna
      exact ⟨hb.1, fun x hx => (hb.2 x hx).2⟩
  refine ⟨rfl, hcomp.1, ?_, hrunspec.1, hrunspec.2, ?_⟩
  · intro x hx
    obtain ⟨_, h2, j, hj⟩ := hcomp.2 x hx
    exact ⟨h2, j, hj⟩
  · intro t oid h
    exact runEvents_tick_key upd (w.clock + dt) efuel _ _ t oid h

/-- Witness for claim C2 (amended) at the initial world with an empty
schedule and a 100-second window. -/
theorem claim_C2_amended_batched_clock_witness :
    (schedKeys world0.plant_update_schedule).Nodup ∧
      (schedKeys world0.animal_update_schedule).Nodup ∧
      batchedTraceSpec envTriv (fun _ o => o) world0 pmTriv 100 2 2 :=
  ⟨List.nodup_nil, List.nodup_nil,
    claim_C2_amended_batched_clock envTriv (fun _ o => o) world0 pmTriv 100 2 2
      List.nodup_nil List.nodup_nil⟩

/-- Counterexample refuting claim C2 as stated: starting from the initial
world, a first bulk-advance of 100 seconds runs the day-zero competition
rebuild and leaves the next rebuild time at 86400 while the clock is 100; a
second bulk-advance of 86500 seconds then assigns the clock the values
86400 (rebuild), 100 (restore to window start) and 86600 (window end), a
sequence that is not strictly increasing, and whose restore value 100 is
not the scheduled time of any due event. -/
theorem claim_C2_counterexample_clock_regression :
    clockTrace ((update_in_bulk envTriv (fun _ o => o)
        ((update_in_bulk envTriv (fun _ o => o) world0 pmTriv 100 2 2).1)
        pmTriv 86500 2 2).2.2) = [86400, 100, 86600] ∧
    ¬ List.Chain' (fun u v : ℚ => u < v)
        (clockTrace ((update_in_bulk envTriv (fun _ o => o)
            ((update_in_bulk envTriv (fun _ o => o) world0 pmTriv 100 2 2).1)
            pmTriv 86500 2 2).2.2)) := by
  have hw1 : (update_in_bulk envTriv (fun _ o => o) world0 pmTriv 100 2 2).1 =
      ({ clock := 100, plant_update_schedule := [], animal_update_schedule := [],
         next_competition_update_time := 86400 } : SchedWorld) := by
    show ({ clock := world0.clock + 100,
            plant_update_schedule :=
              (runEvents (fun _ o => o) (world0.clock + 100) 2
                world0.plant_update_schedule world0.animal_update_schedule).1,
            animal_update_schedule :=
              (runEvents (fun _ o => o) (world0.clock + 100) 2
                world0.plant_update_schedule world0.animal_update_schedule).2.1,
            next_competition_update_time :=
              (compLoop 2 world0.next_competition_update_time
                (world0.clock + 100)).2 } : SchedWorld) = _
    rw [show world0.clock = (0 : ℚ) from rfl,
      show world0.plant_update_schedule = ([] : Sched) from rfl,
      show world0.animal_update_schedule = ([] : Sched) from rfl,
      show world0.next_competition_update_time = (0 : ℚ) from rfl,
      show (0 : ℚ) + 100 = (100 : ℚ) from by norm_num,
      show (2 : ℕ) = 1 + 1 from rfl,
      runEvents_succ_none (fun _ o => o) 100 1 [] [] rfl,
      compLoop_succ_lt 1 (by norm_num : (0 : ℚ) < 100),
      show (0 : ℚ) + PLANT_COMPETITION_UPDATE_INTERVAL_SECONDS = (86400 : ℚ) from by
        norm_num [PLANT_COMPETITION_UPDATE_INTERVAL_SECONDS],
      show (1 : ℕ) = 0 + 1 from rfl,
      compLoop_succ_ge 0 (by norm_num : ¬ (86400 : ℚ) < 100)]
  have heq : clockTrace ((update_in_bulk envTriv (fun _ o => o)
      ((update_in_bulk envTriv (fun _ o => o) world0 pmTriv 100 2 2).1)
      pmTriv 86500 2 2).2.2) = [86400, 100, 86600] := by
    rw [hw1]
    show clockTrace (passTrace ++
        (compLoop 2 (86400 : ℚ) ((100 : ℚ) + 86500)).1 ++
        [Ev.restore (100 : ℚ)] ++
        (runEvents (fun _ o => o) ((100 : ℚ) + 86500) 2 [] []).2.2 ++
        [Ev.final ((100 : ℚ) + 86500)]) = _
    rw [show (100 : ℚ) + 86500 = (86600 : ℚ) from by norm_num,
      show (2 : ℕ) = 1 + 1 from rfl,
      runEvents_succ_none (fun _ o => o) 86600 1 [] [] rfl,
      compLoop_succ_lt 1 (by norm_num : (86400 : ℚ) < 86600),
      show (86400 : ℚ) + PLANT_COMPETITION_UPDATE_INTERVAL_SECONDS = (172800 : ℚ) from by
        norm_num [PLANT_COMPETITION_UPDATE_INTERVAL_SECONDS],
      show (1 : ℕ) = 0 + 1 from rfl,
      compLoop_succ_ge 0 (by norm_num : ¬ (172800 : ℚ) < 86600)]
    rfl
  refine ⟨heq, fun hch => ?_⟩
  rw [heq] at hch
  have h2 := (List.chain'_cons.mp hch).1
  norm_num at h2

/-- Claim C1: scheduling a live plant with any delay and bulk-advancing over
any window ticks it exactly once per interval boundary it crosses before
the window end, at the quantized bucket key `int((now + delay) / interval)
* interval` and then at each successive interval step, the clock read
inside each tick being exactly that scheduled key; the hypotheses say the
organism id is fresh, the schedules are well formed, the per-tick update
preserves identity, class and liveness, and the call drains every due
event of the window. -/
theorem claim_C1_scheduler_exactness
    (env : EnvM) (upd : ℚ → Org → Org) (w : SchedWorld) (pm : PMArr)
    (dt delay : ℚ) (cfuel efuel : ℕ) (o : Org) (i : ℕ)
    (hupd : ∀ s o2, (upd s o2).oid = o2.oid ∧ (upd s o2).kind = o2.kind ∧
      (upd s o2).alive = o2.alive)
    (hoid : o.oid = i) (hkind : o.kind = OrgKind.plant) (halive : o.alive = true)
    (hwp : wfSched PLANT_LOGIC_UPDATE_INTERVAL_SECONDS w.plant_update_schedule)
    (hwa : wfSched ANIMAL_UPDATE_TICK_SECONDS w.animal_update_schedule)
    (hop : occCount w.plant_update_schedule i = 0)
    (hoa : occCount w.animal_update_schedule i = 0)
    (hdone : ∀ t2,
      nextEvTime
        ((update_in_bulk env upd (schedule_plant_update w o delay) pm dt cfuel
          efuel).1.plant_update_schedule)
        ((update_in_bulk env upd (schedule_plant_update w o delay) pm dt cfuel
          efuel).1.animal_update_schedule) = some t2 →
      w.clock + dt ≤ t2) :
    tickTimes ((update_in_bulk env upd (schedule_plant_update w o delay) pm dt cfuel
        efuel).2.2) i =
      (List.range (ticksLeft (w.clock + dt) PLANT_LOGIC_UPDATE_INTERVAL_SECONDS
          (quantKey (w.clock + delay) PLANT_LOGIC_UPDATE_INTERVAL_SECONDS))).map
        (fun j : ℕ => quantKey (w.clock + delay) PLANT_LOGIC_UPDATE_INTERVAL_SECONDS +
          (j : ℚ) * PLANT_LOGIC_UPDATE_INTERVAL_SECONDS) := by
  have htr : (update_in_bulk env upd (schedule_plant_update w o delay) pm dt cfuel
      efuel).2.2 =
      passTrace ++ (compLoop cfuel w.next_competition_update_time (w.clock + dt)).1 ++
        [Ev.restore w.clock] ++
        (runEvents upd (w.clock + dt) efuel
          (schedInsert w.plant_update_schedule
            (quantKey (w.clock + delay) PLANT_LOGIC_UPDATE_INTERVAL_SECONDS) o)
          w.animal_update_schedule).2.2 ++
        [Ev.final (w.clock + dt)] := rfl
  rw [htr, tickTimes_append, tickTimes_append, tickTimes_append, tickTimes_append,
    tickTimes_passTrace, tickTimes_compLoop, tickTimes_restore, tickTimes_final]
  simp only [List.nil_append, List.append_nil]
  exact runEvents_tickTimes upd (w.clock + dt) i hupd efuel _ _ _ o
    (wfSched_insert hwp (quantKey_form _ _)) hwa (orgAt_insert_self _ _ _) hoid hkind
    halive (by rw [occCount_insert, hop, if_pos hoid]) hoa
    (fun t2 h2 => hdone t2 h2)

theorem quantKey_concrete_10800 :
    quantKey ((0 : ℚ) + 10800) PLANT_LOGIC_UPDATE_INTERVAL_SECONDS = 10800 := by
  rw [show ((0 : ℚ) + 10800) = ((3 : ℤ) : ℚ) * PLANT_LOGIC_UPDATE_INTERVAL_SECONDS from by
    norm_num [PLANT_LOGIC_UPDATE_INTERVAL_SECONDS]]
  rw [quantKey_mul 3 _ (ne_of_gt IP_pos)]
  norm_num [PLANT_LOGIC_UPDATE_INTERVAL_SECONDS]

theorem quantKey_concrete_14400 :
    quantKey ((10800 : ℚ) + PLANT_LOGIC_UPDATE_INTERVAL_SECONDS)
      PLANT_LOGIC_UPDATE_INTERVAL_SECONDS = 14400 := by
  rw [show ((10800 : ℚ) + PLANT_LOGIC_UPDATE_INTERVAL_SECONDS) =
      ((4 : ℤ) : ℚ) * PLANT_LOGIC_UPDATE_INTERVAL_SECONDS from by
    norm_num [PLANT_LOGIC_UPDATE_INTERVAL_SECONDS]]
  rw [quantKey_mul 4 _ (ne_of_gt IP_pos)]
  norm_num [PLANT_LOGIC_UPDATE_INTERVAL_SECONDS]

theorem runEvents_scenario_C1 :
    runEvents (fun _ o => o) (14400 : ℚ) 2 [((10800 : ℚ), [o7])] [] =
      ([((14400 : ℚ), [o7])], [], [Ev.key 10800, Ev.tick 10800 7]) := by
  rw [show (2 : ℕ) = 1 + 1 from rfl,
    runEvents_succ_step (fun _ o => o) 14400 1 [((10800 : ℚ), [o7])] [] 10800 rfl
      (by norm_num)]
  have hstep : stepState (fun _ o => o) 10800 [((10800 : ℚ), [o7])] [] =
      ([(quantKey ((10800 : ℚ) + PLANT_LOGIC_UPDATE_INTERVAL_SECONDS)
          PLANT_LOGIC_UPDATE_INTERVAL_SECONDS, [o7])], [], [Ev.tick 10800 7]) := by
    unfold stepState
    rw [show schedPop [((10800 : ℚ), [o7])] 10800 = ([o7], []) from
      schedPop_eq_of_head rfl]
    rw [show schedPop ([] : Sched) 10800 = ([], []) from rfl]
    rw [show ([o7] ++ ([] : List Org)) = [o7] from by simp]
    rw [processCreatures_cons_plant (fun _ o => o) 10800 [] [] [] rfl rfl,
      if_pos (show o7.alive = true from rfl)]
    rw [processCreatures_nil]
    rfl
  rw [hstep, quantKey_concrete_14400]
  rw [show (1 : ℕ) = 0 + 1 from rfl,
    runEvents_succ_stop (fun _ o => o) 14400 0 [((14400 : ℚ), [o7])] [] 14400 rfl
      (by norm_num)]
  rfl

/-- Witness for claim C1 at the concrete scenario of the specification:
from the initial world, scheduling one live plant with delay `3 x interval
= 10800` and bulk-advancing by `4 x interval = 14400` ticks it exactly
once, at the quantized key `10800 = now + 3 x interval`. -/
theorem claim_C1_scheduler_exactness_witness :
    tickTimes ((update_in_bulk envTriv (fun _ o => o)
        (schedule_plant_update world0 o7 10800) pmTriv 14400 1 2).2.2) 7 = [10800] := by
  have hA : (update_in_bulk envTriv (fun _ o => o)
      (schedule_plant_update world0 o7 10800) pmTriv 14400 1 2).1.plant_update_schedule =
      [((14400 : ℚ), [o7])] := by
    show (runEvents (fun _ o => o) (world0.clock + 14400) 2
        (schedInsert world0.plant_update_schedule
          (quantKey (world0.clock + 10800) PLANT_LOGIC_UPDATE_INTERVAL_SECONDS) o7)
        world0.animal_update_schedule).1 = _
    rw [show world0.clock = (0 : ℚ) from rfl,
      show world0.plant_update_schedule = ([] : Sched) from rfl,
      show world0.animal_update_schedule = ([] : Sched) from rfl,
      quantKey_concrete_10800,
      show schedInsert ([] : Sched) (10800 : ℚ) o7 = [((10800 : ℚ), [o7])] from rfl,
      show (0 : ℚ) + 14400 = (14400 : ℚ) from by norm_num,
      runEvents_scenario_C1]
  have hB : (update_in_bulk envTriv (fun _ o => o)
      (schedule_plant_update world0 o7 10800) pmTriv 14400 1 2).1.animal_update_schedule =
      ([] : Sched) := by
    show (runEvents (fun _ o => o) (world0.clock + 14400) 2
        (schedInsert world0.plant_update_schedule
          (quantKey (world0.clock + 10800) PLANT_LOGIC_UPDATE_INTERVAL_SECONDS) o7)
        world0.animal_update_schedule).2.1 = _
    rw [show world0.clock = (0 : ℚ) from rfl,
      show world0.plant_update_schedule = ([] : Sched) from rfl,
      show world0.animal_update_schedule = ([] : Sched) from rfl,
      quantKey_concrete_10800,
      show schedInsert ([] : Sched) (10800 : ℚ) o7 = [((10800 : ℚ), [o7])] from rfl,
      show (0 : ℚ) + 14400 = (14400 : ℚ) from by norm_num,
      runEvents_scenario_C1]
  have hdone : ∀ t2,
      nextEvTime
        ((update_in_bulk envTriv (fun _ o => o)
          (schedule_plant_update world0 o7 10800) pmTriv 14400 1 2).1.plant_update_schedule)
        ((update_in_bulk envTriv (fun _ o => o)
          (schedule_plant_update world0 o7 10800) pmTriv 14400 1
          2).1.animal_update_schedule) = some t2 →
      world0.clock + 14400 ≤ t2 := by
    intro t2 h2
    rw [hA, hB] at h2
    rw [show nextEvTime [((14400 : ℚ), [o7])] ([] : Sched) = some 14400 from rfl] at h2
    rw [show world0.clock = (0 : ℚ) from rfl]
    simp only [Option.some.injEq] at h2
    rw [← h2]
    norm_num
  have h := claim_C1_scheduler_exactness envTriv (fun _ o => o) world0 pmTriv 14400 10800
    1 2 o7 7 (fun _ _ => ⟨rfl, rfl, rfl⟩) rfl rfl rfl
    ⟨fun e he => absurd he (List.not_mem_nil e), List.nodup_nil⟩
    ⟨fun e he => absurd he (List.not_mem_nil e), List.nodup_nil⟩
    rfl rfl hdone
  rw [h]
  rw [show world0.clock = (0 : ℚ) from rfl, quantKey_concrete_10800]
  rw [show ticksLeft ((0 : ℚ) + 14400) PLANT_LOGIC_UPDATE_INTERVAL_SECONDS 10800 = 1 from by
    unfold ticksLeft
    rw [if_pos (by norm_num)]
    norm_num [PLANT_LOGIC_UPDATE_INTERVAL_SECONDS]]
  rw [show List.range 1 = [0] from rfl, List.map_cons, List.map_nil]
  norm_num

end EcoEvo
